import Mathlib

/-!
Shallow embedding of the DeGirum `VideoCapture` frame-production pipeline
(`src/VideoCapture.cpp`, `src/VideoCapture.h`, `src/ResizeCapture.cpp`).

The external media-decoding collaborators (demuxer, stateful decoder,
filter graph) are modelled abstractly, following the contract stated in the
spec's glossary: the demuxer yields a finite sequence of per-stream
compressed packets; the decoder is a stateful FIFO that may withhold up to
`delay` pictures until it receives the end-of-stream flush signal; the
filter chain is likewise a FIFO with its own delay and its own flush
signal.  Pictures are identified by their presentation timestamp; pixel
contents are out of scope (spec §1).
-/

set_option maxRecDepth 4096

namespace DG

/-- A decoded picture, identified by its presentation timestamp (PTS). -/
structure Picture where
  pts : Int
deriving DecidableEq, Repr, Inhabited

/-- A compressed data unit produced by the demuxer: the stream it belongs to
plus the decoded pictures that feeding it to the decoder will eventually
yield. -/
structure Packet where
  stream_index : Int
  pics : List Picture
deriving DecidableEq, Repr, Inhabited

/-- `AVRational`. -/
structure Rational where
  num : Int
  den : Int
deriving DecidableEq, Repr, Inhabited

/-- Per-stream metadata recorded by the demuxer (`AVStream` fields used by
`VideoCapture::get`). -/
structure StreamInfo where
  avg_frame_rate : Rational
  r_frame_rate : Rational
  nb_frames : Int
  duration : Int
  time_base : Rational
deriving DecidableEq, Repr, Inhabited

/-- The demuxer (`AVFormatContext`): remaining packets in file order plus
stream metadata. -/
structure Demuxer where
  packets : List Packet
  streams : List StreamInfo
deriving DecidableEq, Repr, Inhabited

/-- The stateful decoder (`AVCodecContext`).  `buf` holds decoded pictures
in presentation order; while not flushed the decoder withholds the last
`delay` of them (frame/slice parallelism latency), and after the
end-of-stream flush signal it surrenders everything. -/
structure Decoder where
  buf : List Picture
  delay : Nat
  flushed : Bool
  codec_tag : Int
deriving DecidableEq, Repr, Inhabited

/-- `avcodec_send_packet` with a (possibly empty) data packet: rejected with
`AVERROR_EOF` once the decoder is in draining mode, otherwise the packet's
pictures enter the decoder. -/
def Decoder.send (d : Decoder) (p : Packet) : Option Decoder :=
  if d.flushed then none
  else some { d with buf := d.buf ++ p.pics }

/-- `avcodec_send_packet(ctx, nullptr)`: the end-of-stream flush signal. -/
def Decoder.sendFlush (d : Decoder) : Decoder :=
  { d with flushed := true }

/-- `avcodec_receive_frame`: a picture is available if the decoder has been
flushed and still holds one, or if it holds more than `delay` pictures;
otherwise `EAGAIN`/`EOF`, which the orchestration code treats uniformly. -/
def Decoder.receive (d : Decoder) : Option (Picture × Decoder) :=
  match d.buf with
  | [] => none
  | p :: rest =>
    if d.flushed || decide (d.delay < d.buf.length) then
      some (p, { d with buf := rest })
    else none

/-- The filter chain (`AVFilterGraph` with its `buffersrc`/`buffersink`
endpoints): a FIFO of pictures with its own buffering delay and its own
end-of-stream flag. -/
structure FilterGraph where
  buf : List Picture
  delay : Nat
  eof : Bool
deriving DecidableEq, Repr, Inhabited

/-- `av_buffersrc_add_frame_flags` with a picture: fails once the chain has
been signalled end-of-stream. -/
def FilterGraph.push (g : FilterGraph) (p : Picture) : Option FilterGraph :=
  if g.eof then none
  else some { g with buf := g.buf ++ [p] }

/-- `av_buffersrc_add_frame_flags(ctx, nullptr, 0)`: signal end-of-stream to
the chain (always succeeds). -/
def FilterGraph.flush (g : FilterGraph) : FilterGraph :=
  { g with eof := true }

/-- `av_buffersink_get_frame`: an output picture is available if the chain
was flushed and still holds one, or if it holds more than `delay`. -/
def FilterGraph.pull (g : FilterGraph) : Option (Picture × FilterGraph) :=
  match g.buf with
  | [] => none
  | p :: rest =>
    if g.eof || decide (g.delay < g.buf.length) then
      some (p, { g with buf := rest })
    else none

/-- `AV_NOPTS_VALUE` (`INT64_MIN`). -/
def AV_NOPTS_VALUE : Int := -(2 ^ 63)

/-- `AV_PIX_FMT_NONE`. -/
def AV_PIX_FMT_NONE : Int := -1

/-- Which member function `m_readFrameImpl` points at. -/
inductive ReadImpl
  | direct
  | filtered
deriving DecidableEq, Repr, Inhabited

/-- The `DG::VideoCapture` session state: one field per data member of the
C++ class, with owning pointers modelled as `Option`/`Bool` presence. -/
structure VideoCapture where
  fmt_ctx : Option Demuxer := none
  codec_ctx : Option Decoder := none
  sws_ctx : Bool := false
  yuv_frame : Bool := false
  video_stream_index : Int := -1
  width : Int := 0
  height : Int := 0
  src_pix_fmt : Int := AV_PIX_FMT_NONE
  flush_pending : Bool := false
  frame_count : Int := 0
  last_pts : Int := AV_NOPTS_VALUE
  readFrameImpl : ReadImpl := ReadImpl.direct
  filter_graph : Option FilterGraph := none
  target_width : Int := 0
  target_height : Int := 0
deriving DecidableEq, Repr, Inhabited

namespace VideoCapture

/-- A default-constructed `DG::VideoCapture`. -/
def init : VideoCapture := {}

/-- Resources released by `VideoCapture::close`, in the order the calls
appear in the source. -/
inductive ReleaseEvent
  | freeDecoder
  | freeSws
  | freeDemuxer
  | freeYuvFrame
  | freeFilterGraph
deriving DecidableEq, Repr, Inhabited

/-- `VideoCapture::close`: frees the decoder context, the swscale context,
the input format context, the internal YUV frame, the filter graph (in that
source order, each guarded by a presence check), then resets all the state
fields to their initial values.  Returns the emitted release events
alongside the reset state.  Note `m_readFrameImpl` is not reset. -/
def closeImpl (s : VideoCapture) : List ReleaseEvent × VideoCapture :=
  let ev₁ : List ReleaseEvent := if s.codec_ctx.isSome then [.freeDecoder] else []
  let ev₂ : List ReleaseEvent := if s.sws_ctx then [.freeSws] else []
  let ev₃ : List ReleaseEvent := if s.fmt_ctx.isSome then [.freeDemuxer] else []
  let ev₄ : List ReleaseEvent := if s.yuv_frame then [.freeYuvFrame] else []
  let ev₅ : List ReleaseEvent := if s.filter_graph.isSome then [.freeFilterGraph] else []
  (ev₁ ++ ev₂ ++ ev₃ ++ ev₄ ++ ev₅,
   { fmt_ctx := none
     codec_ctx := none
     sws_ctx := false
     yuv_frame := false
     video_stream_index := -1
     width := 0
     height := 0
     src_pix_fmt := AV_PIX_FMT_NONE
     flush_pending := false
     frame_count := 0
     last_pts := AV_NOPTS_VALUE
     readFrameImpl := s.readFrameImpl
     filter_graph := none
     target_width := 0
     target_height := 0 })

/-- The state after `VideoCapture::close`. -/
def close (s : VideoCapture) : VideoCapture :=
  (closeImpl s).2

/-- The release events emitted by `VideoCapture::close`. -/
def closeReleases (s : VideoCapture) : List ReleaseEvent :=
  (closeImpl s).1

/-- `VideoCapture::isOpened`: `m_fmt_ctx && m_codec_ctx`. -/
def isOpened (s : VideoCapture) : Bool :=
  s.fmt_ctx.isSome && s.codec_ctx.isSome

end VideoCapture

/-- Outcome description of the external-library calls made by
`VideoCapture::open` for one particular path argument: which acquisition
steps succeed and what the probed media looks like. -/
structure OpenEnv where
  open_input : Option Demuxer
  find_stream_info_ok : Bool
  best_stream : Int
  alloc_codec_ok : Bool
  params_to_context_ok : Bool
  codec_open_ok : Bool
  codec_width : Int
  codec_height : Int
  codec_pix_fmt : Int
  codec_tag : Int
  decoder_delay : Nat
  frame_alloc_ok : Bool
  sws_ok : Bool
  filter_init_ok : Bool
  filter_delay : Nat
deriving DecidableEq, Repr, Inhabited

namespace VideoCapture

/-- `VideoCapture::open(filename, target_width, target_height)`, translated
step by step; each early `return false` leaves the state exactly as the C++
does (no unwinding except the filter-graph failure path, which calls
`close()`). -/
def «open» (s : VideoCapture) (env : OpenEnv) (target_width target_height : Int) :
    Bool × VideoCapture :=
  -- Clean up any existing resources if already opened
  let s := close s
  let s := { s with target_width := target_width, target_height := target_height }
  -- Open input stream and read header
  match env.open_input with
  | none => (false, s)
  | some d =>
    let s := { s with fmt_ctx := some d }
    -- Get stream info
    if !env.find_stream_info_ok then (false, s)
    else
      -- Find best video stream
      let s := { s with video_stream_index := env.best_stream }
      if env.best_stream < 0 then (false, s)
      else
        -- Create codec context
        if !env.alloc_codec_ok then (false, s)
        else
          let dec : Decoder :=
            { buf := [], delay := env.decoder_delay, flushed := false,
              codec_tag := env.codec_tag }
          let s := { s with codec_ctx := some dec }
          -- Fill codec context from stream codec parameters
          if !env.params_to_context_ok then (false, s)
          else
            -- Initialize codec context to use selected codec
            if !env.codec_open_ok then (false, s)
            else
              -- Store video properties
              let s := { s with width := env.codec_width, height := env.codec_height,
                                src_pix_fmt := env.codec_pix_fmt }
              -- Allocate internal decoded YUV frame
              if !env.frame_alloc_ok then (false, s)
              else
                let s := { s with yuv_frame := true }
                -- Swscale context for YUV -> BGR24 conversion
                if !env.sws_ok then (false, s)
                else
                  let s := { s with sws_ctx := true }
                  -- Choose implementation based on resize needed
                  if target_width > 0 && target_height > 0 then
                    let s := { s with readFrameImpl := ReadImpl.filtered }
                    let g : FilterGraph :=
                      { buf := [], delay := env.filter_delay, eof := false }
                    if env.filter_init_ok then
                      (true, { s with filter_graph := some g })
                    else
                      -- Filter graph init failed, clean up and return false
                      (false, close { s with filter_graph := some g })
                  else
                    (true, { s with readFrameImpl := ReadImpl.direct })

end VideoCapture

/-- `cv::CAP_PROP_POS_MSEC`. -/
def CAP_PROP_POS_MSEC : Int := 0
/-- `cv::CAP_PROP_POS_FRAMES`. -/
def CAP_PROP_POS_FRAMES : Int := 1
/-- `cv::CAP_PROP_POS_AVI_RATIO`. -/
def CAP_PROP_POS_AVI_RATIO : Int := 2
/-- `cv::CAP_PROP_FRAME_WIDTH`. -/
def CAP_PROP_FRAME_WIDTH : Int := 3
/-- `cv::CAP_PROP_FRAME_HEIGHT`. -/
def CAP_PROP_FRAME_HEIGHT : Int := 4
/-- `cv::CAP_PROP_FPS`. -/
def CAP_PROP_FPS : Int := 5
/-- `cv::CAP_PROP_FOURCC`. -/
def CAP_PROP_FOURCC : Int := 6
/-- `cv::CAP_PROP_FRAME_COUNT`. -/
def CAP_PROP_FRAME_COUNT : Int := 7

/-- `av_q2d`: rational to floating value, modelled over `ℚ`. -/
def av_q2d (r : DG.Rational) : ℚ :=
  (r.num : ℚ) / (r.den : ℚ)

namespace VideoCapture

/-- The `CAP_PROP_FRAME_COUNT` computation of `VideoCapture::get`, split out
because the `CAP_PROP_POS_AVI_RATIO` case of the C++ calls
`get(CAP_PROP_FRAME_COUNT)` recursively. -/
def getFrameCount (stream : StreamInfo) : ℚ :=
  if stream.nb_frames > 0 then (stream.nb_frames : ℚ)
  else if stream.duration ≠ AV_NOPTS_VALUE ∧ stream.avg_frame_rate.den > 0 then
    -- duration_sec * fps
    ((stream.duration : ℚ) * av_q2d stream.time_base) * av_q2d stream.avg_frame_rate
  else -1

/-- `VideoCapture::get(propId)`: OpenCV-compatible property query; `-1`
when the session is not opened or the identifier is not handled by the
switch.  Values are modelled over `ℚ` in place of `double`. -/
def get (s : VideoCapture) (propId : Int) : ℚ :=
  if !s.isOpened then -1
  else
    match s.fmt_ctx with
    | none => -1
    | some d =>
      -- m_fmt_ctx->streams[m_video_stream_index]
      let stream := d.streams.getD s.video_stream_index.toNat default
      if propId = CAP_PROP_FRAME_WIDTH then (s.width : ℚ)
      else if propId = CAP_PROP_FRAME_HEIGHT then (s.height : ℚ)
      else if propId = CAP_PROP_FPS then
        if stream.avg_frame_rate.den > 0 then av_q2d stream.avg_frame_rate
        else if stream.r_frame_rate.den > 0 then av_q2d stream.r_frame_rate
        else -1
      else if propId = CAP_PROP_FRAME_COUNT then getFrameCount stream
      else if propId = CAP_PROP_POS_FRAMES then (s.frame_count : ℚ)
      else if propId = CAP_PROP_POS_MSEC then
        if s.last_pts = AV_NOPTS_VALUE then 0
        else ((s.last_pts : ℚ) * av_q2d stream.time_base) * 1000
      else if propId = CAP_PROP_POS_AVI_RATIO then
        let total := getFrameCount stream
        if total > 0 then (s.frame_count : ℚ) / total else 0
      else if propId = CAP_PROP_FOURCC then
        match s.codec_ctx with
        | some dec => (dec.codec_tag : ℚ)
        | none => -1
      else -1

end VideoCapture

/-- Observable interactions of a `readFrame` call with the external
collaborators, in program order. -/
inductive Event
  | readPkt (r : Option Packet)        -- av_read_frame result
  | sendPkt (ok : Bool)                -- avcodec_send_packet with a data packet
  | sendEOS                            -- avcodec_send_packet(ctx, nullptr)
  | recvFrame (r : Option Picture)     -- avcodec_receive_frame
  | pushFilter (ok : Bool)             -- av_buffersrc_add_frame_flags with a picture
  | flushFilter                        -- av_buffersrc_add_frame_flags(ctx, nullptr, 0)
  | pullSink (r : Option Picture)      -- av_buffersink_get_frame
deriving DecidableEq, Repr, Inhabited

namespace VideoCapture

/-- Result of one `readFrame` call: the boolean, the successor state, the
picture written into the caller's `dst` frame (if any), and the trace of
collaborator interactions. -/
abbrev ReadResult := Bool × VideoCapture × Option Picture × List Event

/-- `avcodec_send_packet(m_codec_ctx, pkt)` on the session state. -/
def sendPacketS (s : VideoCapture) (p : Packet) : Bool × VideoCapture :=
  match s.codec_ctx with
  | none => (false, s)
  | some dec =>
    match dec.send p with
    | none => (false, s)
    | some dec' => (true, { s with codec_ctx := some dec' })

/-- `avcodec_send_packet(m_codec_ctx, nullptr)` on the session state. -/
def sendEOSS (s : VideoCapture) : VideoCapture :=
  { s with codec_ctx := s.codec_ctx.map Decoder.sendFlush }

/-- `avcodec_receive_frame(m_codec_ctx, m_yuv_frame)` on the session state. -/
def recvFrameS (s : VideoCapture) : Option Picture × VideoCapture :=
  match s.codec_ctx with
  | none => (none, s)
  | some dec =>
    match dec.receive with
    | none => (none, s)
    | some (p, dec') => (some p, { s with codec_ctx := some dec' })

/-- `av_buffersrc_add_frame_flags(m_buffersrc_ctx, frame, KEEP_REF)` on the
session state. -/
def pushFilterS (s : VideoCapture) (p : Picture) : Bool × VideoCapture :=
  match s.filter_graph with
  | none => (false, s)
  | some g =>
    match g.push p with
    | none => (false, s)
    | some g' => (true, { s with filter_graph := some g' })

/-- `av_buffersrc_add_frame_flags(m_buffersrc_ctx, nullptr, 0)` on the
session state (succeeds whenever the graph exists). -/
def flushFilterS (s : VideoCapture) : Bool × VideoCapture :=
  match s.filter_graph with
  | none => (false, s)
  | some g => (true, { s with filter_graph := some g.flush })

/-- `av_buffersink_get_frame(m_buffersink_ctx, dst_frame)` on the session
state. -/
def pullSinkS (s : VideoCapture) : Option Picture × VideoCapture :=
  match s.filter_graph with
  | none => (none, s)
  | some g =>
    match g.pull with
    | none => (none, s)
    | some (p, g') => (some p, { s with filter_graph := some g' })

/-- `VideoCapture::receiveAndConvert`: poll the decoder; on success update
the position tracking (`m_frame_count`, `m_last_pts`) and convert the
picture into the caller's buffer. -/
def receiveAndConvert (s : VideoCapture) : Bool × VideoCapture × Option Picture × List Event :=
  match recvFrameS s with
  | (some p, s') =>
    (true,
     { s' with frame_count := s'.frame_count + 1, last_pts := p.pts },
     some p, [Event.recvFrame (some p)])
  | (none, s') => (false, s', none, [Event.recvFrame none])

/-- The loop of `VideoCapture::readFrameDirect`, structurally recursive on
the demuxer's remaining packets (the end-of-file branch always breaks). -/
def readFrameDirectGo (streams : List StreamInfo) (s : VideoCapture) :
    List Packet → ReadResult
  | [] =>
    -- av_read_frame returned < 0: end of file
    let s := { s with fmt_ctx := some ⟨[], streams⟩ }
    let (s, evFlush) :=
      if !s.flush_pending then
        ({ (sendEOSS s) with flush_pending := true }, [Event.sendEOS])
      else (s, ([] : List Event))
    -- Try to receive any remaining frames from decoder after flushing
    let (ok, s, out, ev₂) := receiveAndConvert s
    (ok, s, out, Event.readPkt none :: (evFlush ++ ev₂))
  | pkt :: rest =>
    -- av_read_frame consumed the next packet
    let s := { s with fmt_ctx := some ⟨rest, streams⟩ }
    if pkt.stream_index == s.video_stream_index then
      -- Send packet to decoder
      let (okSend, s) := sendPacketS s pkt
      if !okSend then
        (false, s, none, [Event.readPkt (some pkt), Event.sendPkt false])
      else
        -- Check if the converter has a complete frame ready
        let (got, s, out, ev₂) := receiveAndConvert s
        if got then
          (true, s, out, Event.readPkt (some pkt) :: Event.sendPkt true :: ev₂)
        else
          -- need more packets, continue
          let (r, s', out', ev') := readFrameDirectGo streams s rest
          (r, s', out', Event.readPkt (some pkt) :: Event.sendPkt true :: (ev₂ ++ ev'))
    else
      -- Packet does not belong to video stream, ignore it and read next
      let (r, s', out', ev') := readFrameDirectGo streams s rest
      (r, s', out', Event.readPkt (some pkt) :: ev')

/-- `VideoCapture::readFrameDirect(dst_frame)`; `dst` records whether the
caller passed a non-null destination frame. -/
def readFrameDirect (s : VideoCapture) (dst : Bool) : ReadResult :=
  -- Check if video is opened and dst_frame frame is valid
  if !s.isOpened || !dst then (false, s, none, [])
  else
    match s.fmt_ctx with
    | none => (false, s, none, [])
    | some d => readFrameDirectGo d.streams s d.packets

/-- Whether a loop iteration breaks out of the `for(;;)` with a result, or
falls through to the next iteration. -/
inductive LoopStep
  | brk (result : Bool) (out : Option Picture)
  | cont
deriving DecidableEq, Repr, Inhabited

/-- On end of file `av_read_frame` blanks the caller's packet
(`stream_index` becomes 0, no data); the filtered read loop then reaches
the stream-index check with this blanked packet. -/
def blankPacket : Packet := { stream_index := 0, pics := [] }

/-- The packet-processing section of the `readFrameFiltered` loop (the
`if (pkt->stream_index == m_video_stream_index)` block): send the packet to
the decoder, poll a decoded picture, push it into the filter source, try to
pull from the sink. -/
def filteredProcessPacket (s : VideoCapture) (pkt : Packet) :
    LoopStep × VideoCapture × List Event :=
  if pkt.stream_index == s.video_stream_index then
    -- Send packet to decoder (packet buffers freed right after)
    let (okSend, s) := sendPacketS s pkt
    if !okSend then (LoopStep.brk false none, s, [Event.sendPkt false])
    else
      -- Try to receive decoded frame
      match recvFrameS s with
      | (some p, s) =>
        -- Push decoded YUV frame to filter graph
        let (okPush, s) := pushFilterS s p
        if okPush then
          -- Pull processed BGR frame from filter graph
          match pullSinkS s with
          | (some q, s) =>
            (LoopStep.brk true (some q), s,
             [Event.sendPkt true, Event.recvFrame (some p),
              Event.pushFilter true, Event.pullSink (some q)])
          | (none, s) =>
            -- EAGAIN means need more frames, continue loop
            (LoopStep.cont, s,
             [Event.sendPkt true, Event.recvFrame (some p),
              Event.pushFilter true, Event.pullSink none])
        else
          (LoopStep.cont, s,
           [Event.sendPkt true, Event.recvFrame (some p), Event.pushFilter false])
      | (none, s) =>
        -- EAGAIN means need more packets, continue loop
        (LoopStep.cont, s, [Event.sendPkt true, Event.recvFrame none])
  else
    -- Not a video packet, ignore it
    (LoopStep.cont, s, [])

/-- The loop of `VideoCapture::readFrameFiltered`.  The end-of-file branch
does not always break: when the decoder still yields a picture but the sink
produces none (or the source push fails), control falls through to the
packet check with the blanked packet and the loop continues.  Fuel bounds
the iteration count; `filteredFuel` below always provides enough. -/
def readFrameFilteredGo (streams : List StreamInfo) :
    Nat → VideoCapture → List Packet → ReadResult
  | 0, s, pkts => (false, { s with fmt_ctx := some ⟨pkts, streams⟩ }, none, [])
  | fuel + 1, s, pkts =>
    match pkts with
    | [] =>
      -- av_read_frame returned < 0: end of file
      let s := { s with fmt_ctx := some ⟨[], streams⟩ }
      let (s, evF) :=
        if !s.flush_pending then
          -- Send null packet to decoder to signal end of stream
          ({ (sendEOSS s) with flush_pending := true }, [Event.sendEOS])
        else (s, ([] : List Event))
      let ev₀ := Event.readPkt none :: evF
      -- Try to receive any remaining frames from decoder
      match recvFrameS s with
      | (some p, s) =>
        -- Push to filter graph
        let (okPush, s) := pushFilterS s p
        if okPush then
          -- Try to pull from filter graph
          match pullSinkS s with
          | (some q, s) =>
            (true, s, some q,
             ev₀ ++ [Event.recvFrame (some p), Event.pushFilter true,
                     Event.pullSink (some q)])
          | (none, s) =>
            -- No break here: fall through to the packet check (blank packet)
            let ev₁ := ev₀ ++ [Event.recvFrame (some p), Event.pushFilter true,
                               Event.pullSink none]
            let (st, s, evP) := filteredProcessPacket s blankPacket
            match st with
            | LoopStep.brk r out => (r, s, out, ev₁ ++ evP)
            | LoopStep.cont =>
              let (r, s', out, ev') := readFrameFilteredGo streams fuel s []
              (r, s', out, ev₁ ++ evP ++ ev')
        else
          -- Push failed; also falls through to the packet check
          let ev₁ := ev₀ ++ [Event.recvFrame (some p), Event.pushFilter false]
          let (st, s, evP) := filteredProcessPacket s blankPacket
          match st with
          | LoopStep.brk r out => (r, s, out, ev₁ ++ evP)
          | LoopStep.cont =>
            let (r, s', out, ev') := readFrameFilteredGo streams fuel s []
            (r, s', out, ev₁ ++ evP ++ ev')
      | (none, s) =>
        -- Decoder exhausted: flush filter graph, then break
        let (okFlush, s) := flushFilterS s
        if okFlush then
          match pullSinkS s with
          | (some q, s) =>
            (true, s, some q,
             ev₀ ++ [Event.recvFrame none, Event.flushFilter, Event.pullSink (some q)])
          | (none, s) =>
            (false, s, none,
             ev₀ ++ [Event.recvFrame none, Event.flushFilter, Event.pullSink none])
        else
          (false, s, none, ev₀ ++ [Event.recvFrame none])
    | pkt :: rest =>
      -- av_read_frame consumed the next packet
      let s := { s with fmt_ctx := some ⟨rest, streams⟩ }
      let (st, s, evP) := filteredProcessPacket s pkt
      match st with
      | LoopStep.brk r out => (r, s, out, Event.readPkt (some pkt) :: evP)
      | LoopStep.cont =>
        let (r, s', out, ev') := readFrameFilteredGo streams fuel s rest
        (r, s', out, Event.readPkt (some pkt) :: (evP ++ ev'))

/-- Number of pictures currently buffered inside the decoder. -/
def decoderBufLen (s : VideoCapture) : Nat :=
  match s.codec_ctx with
  | some dec => dec.buf.length
  | none => 0

/-- Fuel sufficient for the filtered read loop: each iteration either
consumes a demuxer packet or pops one decoder picture, and at most one
further iteration breaks. -/
def filteredFuel (pkts : List Packet) (decLen : Nat) : Nat :=
  pkts.length + (pkts.map fun p => p.pics.length).sum + decLen + 2

/-- `VideoCapture::readFrameFiltered(dst_frame)`. -/
def readFrameFiltered (s : VideoCapture) (dst : Bool) : ReadResult :=
  -- Check if video is opened and filter graph is initialized
  if !s.isOpened || s.filter_graph.isNone || !dst then (false, s, none, [])
  else
    match s.fmt_ctx with
    | none => (false, s, none, [])
    | some d =>
      readFrameFilteredGo d.streams (filteredFuel d.packets (decoderBufLen s)) s d.packets

/-- `VideoCapture::readFrame(dst)`: single indirection through
`m_readFrameImpl`. -/
def readFrame (s : VideoCapture) (dst : Bool) : ReadResult :=
  match s.readFrameImpl with
  | ReadImpl.direct => readFrameDirect s dst
  | ReadImpl.filtered => readFrameFiltered s dst

/-- Repeated `readFrame` calls: the list of returned booleans, the final
state, and the concatenated event trace. -/
def runReads (s : VideoCapture) (dst : Bool) : Nat → List Bool × VideoCapture × List Event
  | 0 => ([], s, [])
  | n + 1 =>
    let (r, s', _, ev) := readFrame s dst
    let (rs, s'', evs) := runReads s' dst n
    (r :: rs, s'', ev ++ evs)

end VideoCapture

namespace ResizeCapture

/-- The loop of `ResizeCapture::readFrame` (`src/ResizeCapture.cpp`,
lines 67–151), translated independently of `readFrameFiltered`; the two
bodies are textually identical in the source. -/
def readFrameGo (streams : List StreamInfo) :
    Nat → VideoCapture → List Packet → VideoCapture.ReadResult
  | 0, s, pkts => (false, { s with fmt_ctx := some ⟨pkts, streams⟩ }, none, [])
  | fuel + 1, s, pkts =>
    match pkts with
    | [] =>
      -- av_read_frame returned < 0: end of file
      let s := { s with fmt_ctx := some ⟨[], streams⟩ }
      let (s, evF) :=
        if !s.flush_pending then
          -- Send null packet to decoder to signal end of stream
          ({ (VideoCapture.sendEOSS s) with flush_pending := true }, [Event.sendEOS])
        else (s, ([] : List Event))
      let ev₀ := Event.readPkt none :: evF
      -- Try to receive any remaining frames from decoder
      match VideoCapture.recvFrameS s with
      | (some p, s) =>
        -- Push to filter graph
        let (okPush, s) := VideoCapture.pushFilterS s p
        if okPush then
          -- Try to pull from filter graph
          match VideoCapture.pullSinkS s with
          | (some q, s) =>
            (true, s, some q,
             ev₀ ++ [Event.recvFrame (some p), Event.pushFilter true,
                     Event.pullSink (some q)])
          | (none, s) =>
            -- No break here: fall through to the packet check (blank packet)
            let ev₁ := ev₀ ++ [Event.recvFrame (some p), Event.pushFilter true,
                               Event.pullSink none]
            let (st, s, evP) := VideoCapture.filteredProcessPacket s VideoCapture.blankPacket
            match st with
            | VideoCapture.LoopStep.brk r out => (r, s, out, ev₁ ++ evP)
            | VideoCapture.LoopStep.cont =>
              let (r, s', out, ev') := readFrameGo streams fuel s []
              (r, s', out, ev₁ ++ evP ++ ev')
        else
          -- Push failed; also falls through to the packet check
          let ev₁ := ev₀ ++ [Event.recvFrame (some p), Event.pushFilter false]
          let (st, s, evP) := VideoCapture.filteredProcessPacket s VideoCapture.blankPacket
          match st with
          | VideoCapture.LoopStep.brk r out => (r, s, out, ev₁ ++ evP)
          | VideoCapture.LoopStep.cont =>
            let (r, s', out, ev') := readFrameGo streams fuel s []
            (r, s', out, ev₁ ++ evP ++ ev')
      | (none, s) =>
        -- Decoder exhausted: flush filter graph, then break
        let (okFlush, s) := VideoCapture.flushFilterS s
        if okFlush then
          match VideoCapture.pullSinkS s with
          | (some q, s) =>
            (true, s, some q,
             ev₀ ++ [Event.recvFrame none, Event.flushFilter, Event.pullSink (some q)])
          | (none, s) =>
            (false, s, none,
             ev₀ ++ [Event.recvFrame none, Event.flushFilter, Event.pullSink none])
        else
          (false, s, none, ev₀ ++ [Event.recvFrame none])
    | pkt :: rest =>
      -- av_read_frame consumed the next packet
      let s := { s with fmt_ctx := some ⟨rest, streams⟩ }
      let (st, s, evP) := VideoCapture.filteredProcessPacket s pkt
      match st with
      | VideoCapture.LoopStep.brk r out => (r, s, out, Event.readPkt (some pkt) :: evP)
      | VideoCapture.LoopStep.cont =>
        let (r, s', out, ev') := readFrameGo streams fuel s rest
        (r, s', out, Event.readPkt (some pkt) :: (evP ++ ev'))

/-- `ResizeCapture::readFrame(dst_frame)`, operating on the same session
state type (the claim compares the two loops started from equal demuxer,
decoder, filter-graph and flush-flag state). -/
def readFrame (s : VideoCapture) (dst : Bool) : VideoCapture.ReadResult :=
  -- Check if video is opened and filter graph is initialized
  if !s.isOpened || s.filter_graph.isNone || !dst then (false, s, none, [])
  else
    match s.fmt_ctx with
    | none => (false, s, none, [])
    | some d =>
      readFrameGo d.streams
        (VideoCapture.filteredFuel d.packets (VideoCapture.decoderBufLen s)) s d.packets

end ResizeCapture

namespace VideoCapture

/-- Decodable frames remaining in a packet list: the pictures carried by the
packets of the selected video stream. -/
def decodableFrames (pkts : List Packet) (idx : Int) : Nat :=
  ((pkts.filter fun p => p.stream_index == idx).map fun p => p.pics.length).sum

/-- Pictures currently buffered inside the filter chain. -/
def filterBufLen (s : VideoCapture) : Nat :=
  match s.filter_graph with
  | some g => g.buf.length
  | none => 0

/-- Output frames still obtainable from a session: undecoded pictures in the
remaining video-stream packets, plus pictures buffered in the decoder, plus
pictures buffered in the filter chain. -/
def sessionRem (s : VideoCapture) : Nat :=
  (match s.fmt_ctx with
   | some d => decodableFrames d.packets s.video_stream_index
   | none => 0) + decoderBufLen s + filterBufLen s

end VideoCapture

/-- An `OpenEnv` in which every external acquisition step succeeds. -/
def OpenEnv.good (env : OpenEnv) : Prop :=
  (∃ d, env.open_input = some d) ∧
  env.find_stream_info_ok = true ∧
  0 ≤ env.best_stream ∧
  env.alloc_codec_ok = true ∧
  env.params_to_context_ok = true ∧
  env.codec_open_ok = true ∧
  env.frame_alloc_ok = true ∧
  env.sws_ok = true ∧
  env.filter_init_ok = true

instance (env : OpenEnv) : Decidable env.good := by
  unfold OpenEnv.good
  cases h : env.open_input
  · exact isFalse fun ⟨⟨d, hd⟩, _⟩ => by simp [h] at hd
  · exact decidable_of_iff
      (env.find_stream_info_ok = true ∧ 0 ≤ env.best_stream ∧
       env.alloc_codec_ok = true ∧ env.params_to_context_ok = true ∧
       env.codec_open_ok = true ∧ env.frame_alloc_ok = true ∧
       env.sws_ok = true ∧ env.filter_init_ok = true)
      (by constructor
          · intro hrest; exact ⟨⟨_, rfl⟩, hrest⟩
          · intro ⟨_, hrest⟩; exact hrest)

namespace VideoCapture

/-- Stream metadata for the concrete example sessions: 30 fps, 10 frames,
millisecond time base. -/
def exStream : StreamInfo :=
  { avg_frame_rate := ⟨30, 1⟩, r_frame_rate := ⟨30, 1⟩, nb_frames := 10,
    duration := 1000, time_base := ⟨1, 1000⟩ }

/-- A fully successful open environment over the given packet list, with the
given decoder and filter-chain buffering delays. -/
def exEnv (pkts : List Packet) (dd fd : Nat) : OpenEnv :=
  { open_input := some ⟨pkts, [exStream]⟩, find_stream_info_ok := true,
    best_stream := 0, alloc_codec_ok := true, params_to_context_ok := true,
    codec_open_ok := true, codec_width := 64, codec_height := 48,
    codec_pix_fmt := 0, codec_tag := 100, decoder_delay := dd,
    frame_alloc_ok := true, sws_ok := true, filter_init_ok := true,
    filter_delay := fd }

/-- The environment of a source whose container opens and whose video stream
is found, but whose codec-parameter copy (`avcodec_parameters_to_context`)
fails. -/
def exEnvBadParams : OpenEnv :=
  { exEnv [] 0 0 with params_to_context_ok := false }

/-- A session holding every resource: demuxer, decoder, swscale context,
YUV frame, filter chain. -/
def exFullSession : VideoCapture :=
  { fmt_ctx := some ⟨[], []⟩, codec_ctx := some ⟨[], 0, false, 0⟩,
    sws_ctx := true, yuv_frame := true, filter_graph := some ⟨[], 0, false⟩ }

/-- The session of C3's failing input: a one-frame source opened with the
Filtered strategy (target 32×32), no collaborator buffering. -/
def exC3Session : VideoCapture :=
  (VideoCapture.«open» VideoCapture.init (exEnv [⟨0, [⟨7⟩]⟩] 0 0) 32 32).2

end VideoCapture

namespace Event

/-- Is this event a sink-extraction attempt (`av_buffersink_get_frame`)? -/
def isPullSink : Event → Bool
  | .pullSink _ => true
  | _ => false

/-- May this event stand immediately before a sink-extraction attempt: a
successful push into the chain's source, or the chain's end-of-stream
signal. -/
def isPullPred : Event → Bool
  | .pushFilter ok => ok
  | .flushFilter => true
  | _ => false

/-- Is this event the decoder end-of-stream flush
(`avcodec_send_packet(ctx, nullptr)`)? -/
def isEOS : Event → Bool
  | .sendEOS => true
  | _ => false

/-- Is this event a demuxer read (`av_read_frame`)? -/
def isReadPkt : Event → Bool
  | .readPkt _ => true
  | _ => false

end Event

namespace VideoCapture

/-- Number of decoder end-of-stream flush signals occurring in a trace. -/
def countEOS (evs : List Event) : Nat := evs.countP Event.isEOS

/-- 1 when the session has already sent the decoder flush signal, else 0. -/
def flushCount (s : VideoCapture) : Nat := if s.flush_pending then 1 else 0

/-- The last event of `evs`, or `prev` when `evs` is empty. -/
def lastEv (prev : Option Event) : List Event → Option Event
  | [] => prev
  | e :: rest => lastEv (some e) rest

/-- Scanning check that every sink-extraction attempt in the trace stands
immediately after a successful source push or a chain end-of-stream signal;
`prev` is the event just before the scanned suffix. -/
def pullsOk (prev : Option Event) : List Event → Bool
  | [] => true
  | e :: rest =>
    (if e.isPullSink then
       match prev with
       | some q => q.isPullPred
       | none => false
     else true) && pullsOk (some e) rest

/-- True when a sink-extraction attempt occurs in the trace before any
demuxer read (the scan stops at the first event of either kind). -/
def extractionAttemptedFirst : List Event → Bool
  | [] => false
  | Event.pullSink _ :: _ => true
  | Event.readPkt _ :: _ => false
  | _ :: rest => extractionAttemptedFirst rest

/-- Whether the first event of the trace, if any, is a demuxer read. -/
def headIsRead : List Event → Bool
  | [] => true
  | e :: _ => e.isReadPkt

/-- The filter chain's sink currently holds an extractable output picture. -/
def sinkReady (s : VideoCapture) : Bool :=
  match s.filter_graph with
  | some g => g.pull.isSome
  | none => false

/-- A Filtered session whose sink already holds two buffered output
pictures (the chain withheld output from earlier pushes) while a packet
still remains in the demuxer. -/
def exC2Session : VideoCapture :=
  { fmt_ctx := some ⟨[⟨0, [⟨3⟩]⟩], [exStream]⟩,
    codec_ctx := some ⟨[], 0, false, 100⟩,
    sws_ctx := true, yuv_frame := true, video_stream_index := 0,
    width := 64, height := 48, src_pix_fmt := 0,
    readFrameImpl := ReadImpl.filtered,
    filter_graph := some ⟨[⟨1⟩, ⟨2⟩], 1, false⟩,
    target_width := 32, target_height := 32 }

/-- The C1 counterexample session: a one-frame source, decoder delay 1,
filter-chain delay 1, video stream index 0, opened Filtered. -/
def exC1Session : VideoCapture :=
  (VideoCapture.«open» VideoCapture.init (exEnv [⟨0, [⟨7⟩]⟩] 1 1) 32 32).2

/-- Invariant carried across `readFrame` calls for the amended C1 claim:
the session is open, the decoder's draining mode agrees with
`m_flush_pending`, the demuxer is exhausted once the flush was sent, and
the strategy is either Direct, or Filtered with a chain that never
withholds output. -/
def C1Inv (s : VideoCapture) : Prop :=
  ∃ d dec, s.fmt_ctx = some d ∧ s.codec_ctx = some dec ∧
    dec.flushed = s.flush_pending ∧
    (s.flush_pending = true → d.packets = []) ∧
    ((s.readFrameImpl = ReadImpl.direct ∧ s.filter_graph = none) ∨
     (s.readFrameImpl = ReadImpl.filtered ∧
      ∃ g, s.filter_graph = some g ∧ g.delay = 0 ∧ g.buf = [] ∧
        (g.eof = true → s.flush_pending = true ∧ dec.buf = [] ∧ d.packets = [])))

end VideoCapture

namespace VideoCapture

/-- In a good environment, `open` returns true. -/
theorem open_succeeds_of_good (s : VideoCapture) (env : OpenEnv) (tw th : Int)
    (h : env.good) : (VideoCapture.«open» s env tw th).1 = true := by
  obtain ⟨⟨d, hd⟩, h₂, h₃, h₄, h₅, h₆, h₇, h₈, h₉⟩ := h
  simp only [VideoCapture.«open», hd, h₂, h₄, h₅, h₆, h₇, h₈, h₉,
    Bool.not_true, Bool.false_eq_true, if_false]
  rw [if_neg (by omega)]
  split
  · simp [h₉]
  · rfl

/-- C7: `close()` is idempotent and safe on any session state (opened,
unopened, or already closed); it leaves every position/state field at its
initial value, `isOpened()` is false afterwards, and the session can be
successfully reopened. -/
theorem C7_close_idempotent (s : VideoCapture) (env : OpenEnv) (tw th : Int)
    (henv : env.good) :
    close (close s) = close s ∧
    isOpened (close s) = false ∧
    (close s).fmt_ctx = none ∧ (close s).codec_ctx = none ∧
    (close s).sws_ctx = false ∧ (close s).yuv_frame = false ∧
    (close s).filter_graph = none ∧ (close s).video_stream_index = -1 ∧
    (close s).width = 0 ∧ (close s).height = 0 ∧
    (close s).src_pix_fmt = AV_PIX_FMT_NONE ∧ (close s).flush_pending = false ∧
    (close s).frame_count = 0 ∧ (close s).last_pts = AV_NOPTS_VALUE ∧
    (close s).target_width = 0 ∧ (close s).target_height = 0 ∧
    (VideoCapture.«open» (close s) env tw th).1 = true :=
  ⟨rfl, rfl, rfl, rfl, rfl, rfl, rfl, rfl, rfl, rfl, rfl, rfl, rfl, rfl, rfl, rfl,
   open_succeeds_of_good _ env tw th henv⟩

/-- Witness for C7 at a concrete opened session and environment. -/
theorem C7_close_idempotent_witness :
    (exEnv [⟨0, [⟨5⟩]⟩] 0 0).good ∧
    close (close (VideoCapture.«open» VideoCapture.init (exEnv [⟨0, [⟨5⟩]⟩] 0 0) 0 0).2) =
      close (VideoCapture.«open» VideoCapture.init (exEnv [⟨0, [⟨5⟩]⟩] 0 0) 0 0).2 :=
  ⟨by decide,
   (C7_close_idempotent (VideoCapture.«open» VideoCapture.init (exEnv [⟨0, [⟨5⟩]⟩] 0 0) 0 0).2
     (exEnv [⟨0, [⟨5⟩]⟩] 0 0) 0 0 (by decide)).1⟩

/-- C8: `get(propId)` returns the sentinel −1 for every property identifier
outside the supported set 0–7, in every session state; and for an unopened
or closed session it returns −1 for every identifier. -/
theorem C8_get_sentinel (s : VideoCapture) (propId : Int)
    (h : propId < 0 ∨ 7 < propId ∨ isOpened s = false) :
    get s propId = -1 := by
  by_cases hOp : isOpened s = true
  · have hp : propId < 0 ∨ 7 < propId := by
      rcases h with h | h | h
      · exact Or.inl h
      · exact Or.inr h
      · rw [hOp] at h; cases h
    cases hf : s.fmt_ctx with
    | none => simp [get, hf]
    | some d =>
      simp only [get, hOp, Bool.not_true, Bool.false_eq_true, if_false, hf]
      rw [if_neg (by unfold CAP_PROP_FRAME_WIDTH; omega),
          if_neg (by unfold CAP_PROP_FRAME_HEIGHT; omega),
          if_neg (by unfold CAP_PROP_FPS; omega),
          if_neg (by unfold CAP_PROP_FRAME_COUNT; omega),
          if_neg (by unfold CAP_PROP_POS_FRAMES; omega),
          if_neg (by unfold CAP_PROP_POS_MSEC; omega),
          if_neg (by unfold CAP_PROP_POS_AVI_RATIO; omega),
          if_neg (by unfold CAP_PROP_FOURCC; omega)]
  · have hOp' : isOpened s = false := by
      cases hv : isOpened s
      · rfl
      · exact absurd hv hOp
    simp [get, hOp']

/-- Witness for C8: an unsupported identifier on an unopened session. -/
theorem C8_get_sentinel_witness :
    ((7 : Int) < 99 ∨ isOpened VideoCapture.init = false) ∧
    get VideoCapture.init 99 = -1 :=
  ⟨Or.inl (by decide),
   C8_get_sentinel VideoCapture.init 99 (Or.inr (Or.inl (by decide)))⟩

/-- C4 (code evaluation at the failing input): when
`avcodec_parameters_to_context` fails, `open` returns false but leaves both
the demuxer and the freshly allocated codec context in place, so
`isOpened()` reports true afterwards — an observable half-open state, with
no resource released. -/
theorem C4_half_open_after_failed_open :
    (VideoCapture.«open» VideoCapture.init exEnvBadParams 0 0).1 = false ∧
    isOpened (VideoCapture.«open» VideoCapture.init exEnvBadParams 0 0).2 = true ∧
    (VideoCapture.«open» VideoCapture.init exEnvBadParams 0 0).2.fmt_ctx.isSome = true ∧
    (VideoCapture.«open» VideoCapture.init exEnvBadParams 0 0).2.codec_ctx.isSome = true := by
  decide

/-- C5 counterexample: on a session holding the filter chain, the decoder
and the demuxer, `close()` does not release the filter chain before the
decoder before the demuxer — the claimed order is not a subsequence of the
release trace (the code frees the decoder first and the filter graph last). -/
theorem C5_counterexample :
    exFullSession.filter_graph.isSome = true ∧
    exFullSession.codec_ctx.isSome = true ∧
    exFullSession.fmt_ctx.isSome = true ∧
    ¬ ([ReleaseEvent.freeFilterGraph, ReleaseEvent.freeDecoder,
        ReleaseEvent.freeDemuxer].Sublist (closeReleases exFullSession)) := by
  decide

/-- C5 amended: `close()` releases, in strict order, the decoder first, then
the swscale context, then the demuxer, then the standing decoded-picture
buffer, and the filter chain last; each resource present at the call is
released. -/
theorem C5_release_order (s : VideoCapture) :
    (closeReleases s).Sublist
      [ReleaseEvent.freeDecoder, ReleaseEvent.freeSws, ReleaseEvent.freeDemuxer,
       ReleaseEvent.freeYuvFrame, ReleaseEvent.freeFilterGraph] ∧
    (s.codec_ctx.isSome = true → ReleaseEvent.freeDecoder ∈ closeReleases s) ∧
    (s.sws_ctx = true → ReleaseEvent.freeSws ∈ closeReleases s) ∧
    (s.fmt_ctx.isSome = true → ReleaseEvent.freeDemuxer ∈ closeReleases s) ∧
    (s.yuv_frame = true → ReleaseEvent.freeYuvFrame ∈ closeReleases s) ∧
    (s.filter_graph.isSome = true → ReleaseEvent.freeFilterGraph ∈ closeReleases s) := by
  refine ⟨?_, ?_, ?_, ?_, ?_, ?_⟩
  · have h₁ : (if s.codec_ctx.isSome then [ReleaseEvent.freeDecoder]
        else ([] : List ReleaseEvent)).Sublist [ReleaseEvent.freeDecoder] := by
      split <;> simp
    have h₂ : (if s.sws_ctx then [ReleaseEvent.freeSws]
        else ([] : List ReleaseEvent)).Sublist [ReleaseEvent.freeSws] := by
      split <;> simp
    have h₃ : (if s.fmt_ctx.isSome then [ReleaseEvent.freeDemuxer]
        else ([] : List ReleaseEvent)).Sublist [ReleaseEvent.freeDemuxer] := by
      split <;> simp
    have h₄ : (if s.yuv_frame then [ReleaseEvent.freeYuvFrame]
        else ([] : List ReleaseEvent)).Sublist [ReleaseEvent.freeYuvFrame] := by
      split <;> simp
    have h₅ : (if s.filter_graph.isSome then [ReleaseEvent.freeFilterGraph]
        else ([] : List ReleaseEvent)).Sublist [ReleaseEvent.freeFilterGraph] := by
      split <;> simp
    have hall := (((h₁.append h₂).append h₃).append h₄).append h₅
    simpa [closeReleases, closeImpl] using hall
  all_goals intro h
  all_goals simp [closeReleases, closeImpl, h]

/-- C3 (code evaluation at the failing input): a successful Filtered-strategy
`readFrame` leaves the frame counter at 0 and the last timestamp at its
initial value — `readFrameFiltered` never updates the position-tracking
fields that `receiveAndConvert` updates on the Direct path. -/
theorem C3_filtered_read_skips_position_tracking :
    (VideoCapture.«open» VideoCapture.init (exEnv [⟨0, [⟨7⟩]⟩] 0 0) 32 32).1 = true ∧
    (readFrame exC3Session true).1 = true ∧
    (readFrame exC3Session true).2.2.1 = some ⟨7⟩ ∧
    (readFrame exC3Session true).2.1.frame_count = 0 ∧
    (readFrame exC3Session true).2.1.last_pts = AV_NOPTS_VALUE := by
  decide

/-- C9: `readFrame` with a null destination frame returns false immediately,
without touching the demuxer, decoder, filter chain, or any session field,
in every session state and for both strategies. -/
theorem C9_null_dst_rejected (s : VideoCapture) :
    readFrame s false = (false, s, none, []) := by
  cases h : s.readFrameImpl <;>
    simp [readFrame, h, readFrameDirect, readFrameFiltered]

/-- `open` always leaves the flush flag cleared (it starts from `close`,
which resets it, and no acquisition step touches it). -/
theorem open_flush_false (s : VideoCapture) (env : OpenEnv) (tw th : Int) :
    ((VideoCapture.«open» s env tw th).2).flush_pending = false := by
  simp only [VideoCapture.«open»]
  repeat' split
  all_goals simp [close, closeImpl]

/-- C2 counterexample: on an open Filtered session whose sink already holds
an extractable buffered output picture, `readFrame` does not attempt the
sink extraction first — no extraction attempt precedes the demuxer read in
its interaction trace. -/
theorem C2_counterexample :
    exC2Session.readFrameImpl = ReadImpl.filtered ∧
    isOpened exC2Session = true ∧
    sinkReady exC2Session = true ∧
    extractionAttemptedFirst ((readFrame exC2Session true).2.2.2) = false := by
  decide

/-- Appending traces composes the scanning check. -/
theorem pullsOk_append (l₁ : List Event) :
    ∀ (prev : Option Event) (l₂ : List Event),
      pullsOk prev (l₁ ++ l₂) = (pullsOk prev l₁ && pullsOk (lastEv prev l₁) l₂) := by
  induction l₁ with
  | nil => intro prev l₂; simp [pullsOk, lastEv]
  | cons e rest ih =>
    intro prev l₂
    simp [pullsOk, lastEv, ih, Bool.and_assoc]

/-- The packet-processing section of the filtered loop never violates the
scanning check, whatever event precedes it. -/
theorem filteredProcessPacket_pullsOk (s : VideoCapture) (pkt : Packet)
    (prev : Option Event) :
    pullsOk prev (filteredProcessPacket s pkt).2.2 = true := by
  unfold filteredProcessPacket
  repeat' split
  all_goals simp [pullsOk, Event.isPullSink, Event.isPullPred]

/-- Every sink-extraction attempt in a filtered read-loop trace stands
immediately after a successful source push or a chain flush signal. -/
theorem filteredGo_pullsOk (streams : List StreamInfo) :
    ∀ (fuel : Nat) (s : VideoCapture) (pkts : List Packet) (prev : Option Event),
      pullsOk prev (readFrameFilteredGo streams fuel s pkts).2.2.2 = true := by
  intro fuel
  induction fuel with
  | zero => intro s pkts prev; rfl
  | succ n ih =>
    intro s pkts prev
    cases pkts with
    | nil =>
      simp only [readFrameFilteredGo]
      repeat' split
      all_goals simp_all [pullsOk_append, pullsOk, lastEv, Event.isPullSink,
        Event.isPullPred, filteredProcessPacket_pullsOk, ih]
    | cons pkt rest =>
      simp only [readFrameFilteredGo]
      repeat' split
      all_goals simp_all [pullsOk_append, pullsOk, lastEv, Event.isPullSink,
        Event.isPullPred, filteredProcessPacket_pullsOk, ih]

/-- The trace of a filtered read-loop run starts with a demuxer read, when
it is nonempty. -/
theorem filteredGo_headIsRead (streams : List StreamInfo) (fuel : Nat)
    (s : VideoCapture) (pkts : List Packet) :
    headIsRead (readFrameFilteredGo streams fuel s pkts).2.2.2 = true := by
  cases fuel with
  | zero => rfl
  | succ n =>
    cases pkts with
    | nil =>
      simp only [readFrameFilteredGo]
      repeat' split
      all_goals simp_all [headIsRead, Event.isReadPkt]
    | cons pkt rest =>
      simp only [readFrameFilteredGo]
      repeat' split
      all_goals simp_all [headIsRead, Event.isReadPkt]

/-- C2 amended: a Filtered `readFrame` call never attempts a sink
extraction before reading from the demuxer — its trace begins with a
demuxer read (when it interacts at all), and every sink-extraction attempt
stands immediately after a successful push of a newly decoded picture into
the chain's source or after the chain's end-of-stream signal. -/
theorem C2_no_extraction_before_read (s : VideoCapture) (dst : Bool) :
    headIsRead ((readFrameFiltered s dst).2.2.2) = true ∧
    pullsOk none ((readFrameFiltered s dst).2.2.2) = true := by
  unfold readFrameFiltered
  repeat' split
  all_goals first
    | exact ⟨rfl, rfl⟩
    | exact ⟨filteredGo_headIsRead _ _ _ _, filteredGo_pullsOk _ _ _ _ _⟩

theorem countEOS_nil : countEOS [] = 0 := rfl

theorem countEOS_cons (e : Event) (evs : List Event) :
    countEOS (e :: evs) = countEOS evs + (if Event.isEOS e then 1 else 0) :=
  List.countP_cons _ _ _

theorem countEOS_append (l₁ l₂ : List Event) :
    countEOS (l₁ ++ l₂) = countEOS l₁ + countEOS l₂ :=
  List.countP_append _ _ _

theorem flushCount_le_one (s : VideoCapture) : flushCount s ≤ 1 := by
  unfold flushCount; split <;> omega

theorem sendPacketS_flush (s : VideoCapture) (p : Packet) :
    (sendPacketS s p).2.flush_pending = s.flush_pending := by
  unfold sendPacketS Decoder.send
  repeat' split
  all_goals rfl

theorem recvFrameS_flush (s : VideoCapture) :
    (recvFrameS s).2.flush_pending = s.flush_pending := by
  unfold recvFrameS Decoder.receive
  repeat' split
  all_goals rfl

theorem pushFilterS_flush (s : VideoCapture) (p : Picture) :
    (pushFilterS s p).2.flush_pending = s.flush_pending := by
  unfold pushFilterS FilterGraph.push
  repeat' split
  all_goals rfl

theorem flushFilterS_flush (s : VideoCapture) :
    (flushFilterS s).2.flush_pending = s.flush_pending := by
  unfold flushFilterS
  repeat' split
  all_goals rfl

theorem pullSinkS_flush (s : VideoCapture) :
    (pullSinkS s).2.flush_pending = s.flush_pending := by
  unfold pullSinkS FilterGraph.pull
  repeat' split
  all_goals rfl

theorem receiveAndConvert_flush (s : VideoCapture) :
    (receiveAndConvert s).2.1.flush_pending = s.flush_pending := by
  have h := recvFrameS_flush s
  unfold receiveAndConvert
  rcases hr : recvFrameS s with ⟨op, s'⟩
  rw [hr] at h
  simp at h
  cases op <;> simp [h]

theorem receiveAndConvert_countEOS (s : VideoCapture) :
    countEOS (receiveAndConvert s).2.2.2 = 0 := by
  unfold receiveAndConvert
  rcases hr : recvFrameS s with ⟨op, s'⟩
  cases op <;> rfl

theorem filteredProcessPacket_spec (s : VideoCapture) (pkt : Packet) :
    (filteredProcessPacket s pkt).2.1.flush_pending = s.flush_pending ∧
    countEOS (filteredProcessPacket s pkt).2.2 = 0 := by
  unfold filteredProcessPacket
  by_cases hidx : (pkt.stream_index == s.video_stream_index) = true
  · rcases hs : sendPacketS s pkt with ⟨okS, s₁⟩
    have h₁ := sendPacketS_flush s pkt; rw [hs] at h₁; simp at h₁
    simp only [hidx, if_true]
    cases okS
    · exact ⟨h₁, rfl⟩
    · rcases hr : recvFrameS s₁ with ⟨op, s₂⟩
      have h₂ := recvFrameS_flush s₁; rw [hr] at h₂; simp at h₂
      cases op with
      | none => exact ⟨by simp [h₂, h₁], rfl⟩
      | some p =>
        dsimp only
        rcases hp : pushFilterS s₂ p with ⟨okP, s₃⟩
        have h₃ := pushFilterS_flush s₂ p; rw [hp] at h₃; simp at h₃
        cases okP
        · exact ⟨by simp [h₃, h₂, h₁], rfl⟩
        · dsimp only
          rcases hq : pullSinkS s₃ with ⟨oq, s₄⟩
          have h₄ := pullSinkS_flush s₃; rw [hq] at h₄; simp at h₄
          cases oq
          · exact ⟨by simp [h₄, h₃, h₂, h₁], rfl⟩
          · exact ⟨by simp [h₄, h₃, h₂, h₁], rfl⟩
  · simp only [Bool.not_eq_true] at hidx
    refine ⟨?_, ?_⟩ <;> simp [hidx, countEOS]

theorem filteredProcessPacket_flush (s : VideoCapture) (pkt : Packet) :
    (filteredProcessPacket s pkt).2.1.flush_pending = s.flush_pending :=
  (filteredProcessPacket_spec s pkt).1

theorem filteredProcessPacket_countEOS (s : VideoCapture) (pkt : Packet) :
    countEOS (filteredProcessPacket s pkt).2.2 = 0 :=
  (filteredProcessPacket_spec s pkt).2

theorem flush_of_recvFrameS {s : VideoCapture} {op : Option Picture}
    {s' : VideoCapture} (h : recvFrameS s = (op, s')) :
    s'.flush_pending = s.flush_pending := by
  have hx := recvFrameS_flush s; rw [h] at hx; simpa using hx

theorem flush_of_pullSinkS {s : VideoCapture} {op : Option Picture}
    {s' : VideoCapture} (h : pullSinkS s = (op, s')) :
    s'.flush_pending = s.flush_pending := by
  have hx := pullSinkS_flush s; rw [h] at hx; simpa using hx

/-- Across one run of the filtered read loop, the decoder end-of-stream
signal count plus the incoming flush flag equals the outgoing flush flag:
the signal is sent exactly on the flag's false-to-true transition. -/
theorem filteredGo_flushCount (streams : List StreamInfo) :
    ∀ (fuel : Nat) (s : VideoCapture) (pkts : List Packet),
      countEOS (readFrameFilteredGo streams fuel s pkts).2.2.2 + flushCount s =
        flushCount (readFrameFilteredGo streams fuel s pkts).2.1 := by
  intro fuel
  induction fuel with
  | zero => intro s pkts; simp [readFrameFilteredGo, countEOS_nil, flushCount]
  | succ n ih =>
    intro s pkts
    cases pkts with
    | cons pkt rest =>
      simp only [readFrameFilteredGo]
      generalize hXg : ({ s with fmt_ctx := some ⟨rest, streams⟩ } : VideoCapture) = X
      have hXf : X.flush_pending = s.flush_pending := by rw [← hXg]
      split
      · simp [countEOS_cons, filteredProcessPacket_countEOS, Event.isEOS, flushCount,
          filteredProcessPacket_flush, hXf]
      · have hrec := ih ((filteredProcessPacket X pkt).2.1) rest
        have hfc : flushCount ((filteredProcessPacket X pkt).2.1) = flushCount s := by
          simp [flushCount, filteredProcessPacket_flush, hXf]
        rw [hfc] at hrec
        simp [countEOS_cons, countEOS_append, filteredProcessPacket_countEOS, Event.isEOS]
        exact hrec
    | nil =>
      simp only [readFrameFilteredGo]
      generalize hXg : ({ s with fmt_ctx := some ⟨[], streams⟩ } : VideoCapture) = X
      have hXf : X.flush_pending = s.flush_pending := by rw [← hXg]
      by_cases hf : s.flush_pending = true
      · simp only [hXf, hf, Bool.not_true, Bool.false_eq_true, if_false]
        split
        next p s3 heq =>
          have h3 : s3.flush_pending = true := by
            rw [flush_of_recvFrameS heq, hXf, hf]
          split
          next hpo =>
            split
            next q s5 heq2 =>
              have h5 : s5.flush_pending = true := by
                rw [flush_of_pullSinkS heq2, pushFilterS_flush, h3]
              simp [countEOS_cons, countEOS_append, countEOS_nil, Event.isEOS, flushCount,
                h5, hf]
            next s5 heq2 =>
              have h5 : s5.flush_pending = true := by
                rw [flush_of_pullSinkS heq2, pushFilterS_flush, h3]
              split
              next r out heq3 =>
                simp [countEOS_cons, countEOS_append, countEOS_nil, Event.isEOS, flushCount,
                  filteredProcessPacket_countEOS, filteredProcessPacket_flush, h5, hf]
              next heq3 =>
                have hrec := ih ((filteredProcessPacket s5 blankPacket).2.1) []
                have hfcP : flushCount ((filteredProcessPacket s5 blankPacket).2.1) = 1 := by
                  simp [flushCount, filteredProcessPacket_flush, h5]
                rw [hfcP] at hrec
                have hfs : flushCount s = 1 := by simp [flushCount, hf]
                simp [countEOS_cons, countEOS_append, countEOS_nil, Event.isEOS,
                  filteredProcessPacket_countEOS, hfs]
                exact hrec
          next hpo =>
            have h4 : (pushFilterS s3 p).2.flush_pending = true := by
              rw [pushFilterS_flush, h3]
            split
            next r out heq3 =>
              simp [countEOS_cons, countEOS_append, countEOS_nil, Event.isEOS, flushCount,
                filteredProcessPacket_countEOS, filteredProcessPacket_flush, h4, hf]
            next heq3 =>
              have hrec := ih ((filteredProcessPacket (pushFilterS s3 p).2 blankPacket).2.1) []
              have hfcP : flushCount ((filteredProcessPacket (pushFilterS s3 p).2 blankPacket).2.1) = 1 := by
                simp [flushCount, filteredProcessPacket_flush, h4]
              rw [hfcP] at hrec
              have hfs : flushCount s = 1 := by simp [flushCount, hf]
              simp [countEOS_cons, countEOS_append, countEOS_nil, Event.isEOS,
                filteredProcessPacket_countEOS, hfs]
              exact hrec
        next s3 heq =>
          have h3 : s3.flush_pending = true := by
            rw [flush_of_recvFrameS heq, hXf, hf]
          split
          next hfo =>
            split
            next q s5 heq2 =>
              have h5 : s5.flush_pending = true := by
                rw [flush_of_pullSinkS heq2, flushFilterS_flush, h3]
              simp [countEOS_cons, countEOS_append, countEOS_nil, Event.isEOS, flushCount,
                h5, hf]
            next s5 heq2 =>
              have h5 : s5.flush_pending = true := by
                rw [flush_of_pullSinkS heq2, flushFilterS_flush, h3]
              simp [countEOS_cons, countEOS_append, countEOS_nil, Event.isEOS, flushCount,
                h5, hf]
          next hfo =>
            have h5 : (flushFilterS s3).2.flush_pending = true := by
              rw [flushFilterS_flush, h3]
            simp [countEOS_cons, countEOS_append, countEOS_nil, Event.isEOS, flushCount,
              h5, hf]
      · simp only [Bool.not_eq_true] at hf
        simp only [hXf, hf, Bool.not_false, if_true]
        split
        next p s3 heq =>
          have h3 : s3.flush_pending = true := by
            rw [flush_of_recvFrameS heq]
          split
          next hpo =>
            split
            next q s5 heq2 =>
              have h5 : s5.flush_pending = true := by
                rw [flush_of_pullSinkS heq2, pushFilterS_flush, h3]
              simp [countEOS_cons, countEOS_append, countEOS_nil, Event.isEOS, flushCount,
                h5, hf]
            next s5 heq2 =>
              have h5 : s5.flush_pending = true := by
                rw [flush_of_pullSinkS heq2, pushFilterS_flush, h3]
              split
              next r out heq3 =>
                simp [countEOS_cons, countEOS_append, countEOS_nil, Event.isEOS, flushCount,
                  filteredProcessPacket_countEOS, filteredProcessPacket_flush, h5, hf]
              next heq3 =>
                have hrec := ih ((filteredProcessPacket s5 blankPacket).2.1) []
                have hfcP : flushCount ((filteredProcessPacket s5 blankPacket).2.1) = 1 := by
                  simp [flushCount, filteredProcessPacket_flush, h5]
                rw [hfcP] at hrec
                have hfs : flushCount s = 0 := by simp [flushCount, hf]
                simp [countEOS_cons, countEOS_append, countEOS_nil, Event.isEOS,
                  filteredProcessPacket_countEOS, hfs]
                exact hrec
          next hpo =>
            have h4 : (pushFilterS s3 p).2.flush_pending = true := by
              rw [pushFilterS_flush, h3]
            split
            next r out heq3 =>
              simp [countEOS_cons, countEOS_append, countEOS_nil, Event.isEOS, flushCount,
                filteredProcessPacket_countEOS, filteredProcessPacket_flush, h4, hf]
            next heq3 =>
              have hrec := ih ((filteredProcessPacket (pushFilterS s3 p).2 blankPacket).2.1) []
              have hfcP : flushCount ((filteredProcessPacket (pushFilterS s3 p).2 blankPacket).2.1) = 1 := by
                simp [flushCount, filteredProcessPacket_flush, h4]
              rw [hfcP] at hrec
              have hfs : flushCount s = 0 := by simp [flushCount, hf]
              simp [countEOS_cons, countEOS_append, countEOS_nil, Event.isEOS,
                filteredProcessPacket_countEOS, hfs]
              exact hrec
        next s3 heq =>
          have h3 : s3.flush_pending = true := by
            rw [flush_of_recvFrameS heq]
          split
          next hfo =>
            split
            next q s5 heq2 =>
              have h5 : s5.flush_pending = true := by
                rw [flush_of_pullSinkS heq2, flushFilterS_flush, h3]
              simp [countEOS_cons, countEOS_append, countEOS_nil, Event.isEOS, flushCount,
                h5, hf]
            next s5 heq2 =>
              have h5 : s5.flush_pending = true := by
                rw [flush_of_pullSinkS heq2, flushFilterS_flush, h3]
              simp [countEOS_cons, countEOS_append, countEOS_nil, Event.isEOS, flushCount,
                h5, hf]
          next hfo =>
            have h5 : (flushFilterS s3).2.flush_pending = true := by
              rw [flushFilterS_flush, h3]
            simp [countEOS_cons, countEOS_append, countEOS_nil, Event.isEOS, flushCount,
              h5, hf]


/-- Across one run of the direct read loop, the decoder end-of-stream
signal count plus the incoming flush flag equals the outgoing flush flag:
the signal is sent exactly on the flag's false-to-true transition. -/
theorem directGo_flushCount (streams : List StreamInfo) :
    ∀ (pkts : List Packet) (s : VideoCapture),
      countEOS (readFrameDirectGo streams s pkts).2.2.2 + flushCount s =
        flushCount (readFrameDirectGo streams s pkts).2.1 := by
  intro pkts
  induction pkts with
  | nil =>
    intro s
    simp only [readFrameDirectGo]
    try dsimp only
    by_cases hf : s.flush_pending = true
    · simp [hf, countEOS_cons, countEOS_append, countEOS_nil, Event.isEOS, flushCount,
        receiveAndConvert_countEOS, receiveAndConvert_flush]
    · simp only [Bool.not_eq_true] at hf
      simp [hf, countEOS_cons, countEOS_append, countEOS_nil, Event.isEOS, flushCount,
        receiveAndConvert_countEOS, receiveAndConvert_flush]
  | cons pkt rest ih =>
    intro s
    simp only [readFrameDirectGo]
    try dsimp only
    by_cases hidx : (pkt.stream_index == s.video_stream_index) = true
    · simp only [hidx, if_true]
      rcases hs : sendPacketS { s with fmt_ctx := some ⟨rest, streams⟩ } pkt with ⟨okS, s₁⟩
      have h₁ := sendPacketS_flush { s with fmt_ctx := some ⟨rest, streams⟩ } pkt
      rw [hs] at h₁; simp at h₁
      cases okS
      · simp [countEOS_cons, countEOS_nil, Event.isEOS, flushCount, h₁]
      · dsimp only
        rcases hRC : receiveAndConvert s₁ with ⟨got, s₂, out, ev₂⟩
        have hc := receiveAndConvert_countEOS s₁
        have hfl := receiveAndConvert_flush s₁
        rw [hRC] at hc hfl
        simp at hc hfl
        cases got
        · dsimp only
          have hrec := ih s₂
          have hflc : flushCount s₂ = flushCount s := by simp [flushCount, hfl, h₁]
          simp [countEOS_cons, countEOS_append, hc, Event.isEOS]
          exact hflc ▸ hrec
        · simp [countEOS_cons, countEOS_append, hc, Event.isEOS, countEOS_nil,
            flushCount, hfl, h₁]
    · simp only [Bool.not_eq_true] at hidx
      simp only [hidx, Bool.false_eq_true, if_false]
      have hrec := ih { s with fmt_ctx := some ⟨rest, streams⟩ }
      have hflc : flushCount { s with fmt_ctx := some ⟨rest, streams⟩ } = flushCount s := by
        simp [flushCount]
      simp [countEOS_cons, countEOS_append, Event.isEOS]
      exact hflc ▸ hrec

/-- One `readFrame` call sends the decoder end-of-stream signal exactly on
the flush flag's false-to-true transition, for both strategies. -/
theorem readFrame_flushCount (s : VideoCapture) (dst : Bool) :
    countEOS (readFrame s dst).2.2.2 + flushCount s =
      flushCount (readFrame s dst).2.1 := by
  cases himpl : s.readFrameImpl
  · simp only [readFrame, himpl, readFrameDirect]
    split
    · simp [countEOS_nil]
    · split
      · simp [countEOS_nil]
      · exact directGo_flushCount _ _ _
  · simp only [readFrame, himpl, readFrameFiltered]
    split
    · simp [countEOS_nil]
    · split
      · simp [countEOS_nil]
      · exact filteredGo_flushCount _ _ _ _

/-- Across a sequence of `readFrame` calls, the total decoder end-of-stream
signal count plus the incoming flush flag equals the final flush flag. -/
theorem runReads_flushCount (dst : Bool) :
    ∀ (k : Nat) (s : VideoCapture),
      countEOS (runReads s dst k).2.2 + flushCount s =
        flushCount (runReads s dst k).2.1 := by
  intro k
  induction k with
  | zero => intro s; simp [runReads, countEOS_nil]
  | succ n ih =>
    intro s
    simp only [runReads]
    have h₁ := readFrame_flushCount s dst
    have h₂ := ih (readFrame s dst).2.1
    simp only [countEOS_append]
    calc countEOS (readFrame s dst).2.2.2 +
          countEOS (runReads (readFrame s dst).2.1 dst n).2.2 + flushCount s
        = countEOS (runReads (readFrame s dst).2.1 dst n).2.2 +
            (countEOS (readFrame s dst).2.2.2 + flushCount s) := by ring
      _ = countEOS (runReads (readFrame s dst).2.1 dst n).2.2 +
            flushCount (readFrame s dst).2.1 := by rw [h₁]
      _ = flushCount (runReads (readFrame s dst).2.1 dst n).2.1 := h₂

/-- C6: across any sequence of `readFrame` calls on a successfully opened
session (both strategies), the end-of-stream flush signal (null packet) is
sent to the decoder at most once: its count equals the final
`m_flush_pending` flag — 0 while input remains, 1 from the first
exhaustion on, and never again thereafter. -/
theorem C6_flush_sent_at_most_once (s₀ : VideoCapture) (env : OpenEnv)
    (tw th : Int) (k : Nat) (dst : Bool)
    (_hok : (VideoCapture.«open» s₀ env tw th).1 = true) :
    countEOS (runReads (VideoCapture.«open» s₀ env tw th).2 dst k).2.2 =
      flushCount (runReads (VideoCapture.«open» s₀ env tw th).2 dst k).2.1 ∧
    countEOS (runReads (VideoCapture.«open» s₀ env tw th).2 dst k).2.2 ≤ 1 := by
  have h := runReads_flushCount dst k (VideoCapture.«open» s₀ env tw th).2
  have hfo : flushCount (VideoCapture.«open» s₀ env tw th).2 = 0 := by
    simp [flushCount, open_flush_false]
  rw [hfo] at h
  have hb := flushCount_le_one (runReads (VideoCapture.«open» s₀ env tw th).2 dst k).2.1
  omega

/-- Witness for C6 at a concrete two-packet Direct session. -/
theorem C6_flush_sent_at_most_once_witness :
    (VideoCapture.«open» VideoCapture.init (exEnv [⟨0, [⟨1⟩]⟩, ⟨0, [⟨2⟩]⟩] 0 0) 0 0).1 = true ∧
    countEOS (runReads (VideoCapture.«open» VideoCapture.init
        (exEnv [⟨0, [⟨1⟩]⟩, ⟨0, [⟨2⟩]⟩] 0 0) 0 0).2 true 4).2.2 ≤ 1 :=
  ⟨by decide,
   (C6_flush_sent_at_most_once VideoCapture.init (exEnv [⟨0, [⟨1⟩]⟩, ⟨0, [⟨2⟩]⟩] 0 0)
     0 0 4 true (by decide)).2⟩

/-- The two textually identical loop bodies compute identically for any
fuel, state, and packet list. -/
theorem resizeGo_eq_filteredGo (streams : List StreamInfo) :
    ∀ (fuel : Nat) (s : VideoCapture) (pkts : List Packet),
      DG.ResizeCapture.readFrameGo streams fuel s pkts =
        readFrameFilteredGo streams fuel s pkts := by
  intro fuel
  induction fuel with
  | zero => intro s pkts; rfl
  | succ n ih =>
    intro s pkts
    cases pkts with
    | nil => simp only [DG.ResizeCapture.readFrameGo, readFrameFilteredGo, ih]
    | cons pkt rest => simp only [DG.ResizeCapture.readFrameGo, readFrameFilteredGo, ih]

/-- C10: the inheritance-based revision's read loop
(`ResizeCapture::readFrame`) and the function-pointer revision's filtered
read loop (`VideoCapture::readFrameFiltered`) are extensionally equal:
from equal session state (same demuxer, decoder, filter-graph endpoints
and flush flag) they return the same boolean, the same output picture, the
same successor state, and the same collaborator-interaction trace. -/
theorem C10_resize_equals_filtered (s : VideoCapture) (dst : Bool) :
    DG.ResizeCapture.readFrame s dst = readFrameFiltered s dst := by
  simp only [DG.ResizeCapture.readFrame, readFrameFiltered, resizeGo_eq_filteredGo]

theorem decodableFrames_nil (idx : Int) : decodableFrames [] idx = 0 := rfl

theorem decodableFrames_cons (pkt : Packet) (rest : List Packet) (idx : Int) :
    decodableFrames (pkt :: rest) idx =
      (if pkt.stream_index == idx then pkt.pics.length else 0) +
        decodableFrames rest idx := by
  simp only [decodableFrames, List.filter_cons]
  split <;> simp_all

theorem receive_nil {dec : Decoder} (hb : dec.buf = []) : dec.receive = none := by
  simp [Decoder.receive, hb]

theorem receive_flushed {dec : Decoder} {p : Picture} {rest : List Picture}
    (hb : dec.buf = p :: rest) (hf : dec.flushed = true) :
    dec.receive = some (p, { dec with buf := rest }) := by
  simp [Decoder.receive, hb, hf]

theorem receive_ready {dec : Decoder} {p : Picture} {rest : List Picture}
    (hb : dec.buf = p :: rest) (hd : dec.delay < dec.buf.length) :
    dec.receive = some (p, { dec with buf := rest }) := by
  rw [hb] at hd
  simp only [List.length_cons] at hd
  simp [Decoder.receive, hb, hd]

theorem receive_eagain {dec : Decoder} (hf : dec.flushed = false)
    (hd : dec.buf.length ≤ dec.delay) : dec.receive = none := by
  cases hb : dec.buf with
  | nil => simp [Decoder.receive, hb]
  | cons p rest =>
    rw [hb] at hd
    simp only [List.length_cons] at hd
    simp [Decoder.receive, hb, hf]
    omega

theorem sendPacketS_eq (s : VideoCapture) (dec : Decoder) (p : Packet)
    (h : s.codec_ctx = some dec) (hf : dec.flushed = false) :
    sendPacketS s p =
      (true, { s with codec_ctx := some { dec with buf := dec.buf ++ p.pics } }) := by
  simp [sendPacketS, h, Decoder.send, hf]

theorem recvFrameS_eq_none (s : VideoCapture) (dec : Decoder)
    (h : s.codec_ctx = some dec) (hr : dec.receive = none) :
    recvFrameS s = (none, s) := by
  simp [recvFrameS, h, hr]

theorem recvFrameS_eq_some (s : VideoCapture) (dec : Decoder) (p : Picture)
    (dec' : Decoder) (h : s.codec_ctx = some dec)
    (hr : dec.receive = some (p, dec')) :
    recvFrameS s = (some p, { s with codec_ctx := some dec' }) := by
  simp [recvFrameS, h, hr]

theorem receiveAndConvert_eq_none (s : VideoCapture) (dec : Decoder)
    (h : s.codec_ctx = some dec) (hr : dec.receive = none) :
    receiveAndConvert s = (false, s, none, [Event.recvFrame none]) := by
  simp [receiveAndConvert, recvFrameS, h, hr]

theorem receiveAndConvert_eq_some (s : VideoCapture) (dec : Decoder) (p : Picture)
    (dec' : Decoder) (h : s.codec_ctx = some dec)
    (hr : dec.receive = some (p, dec')) :
    receiveAndConvert s =
      (true,
       { s with codec_ctx := some dec'
                frame_count := s.frame_count + 1
                last_pts := p.pts },
       some p, [Event.recvFrame (some p)]) := by
  simp [receiveAndConvert, recvFrameS, h, hr]

theorem pull_nil {g : FilterGraph} (hb : g.buf = []) : g.pull = none := by
  simp [FilterGraph.pull, hb]

theorem pull_ready {g : FilterGraph} {q : Picture} {rest : List Picture}
    (hb : g.buf = q :: rest) (hd : g.delay < g.buf.length) :
    g.pull = some (q, { g with buf := rest }) := by
  rw [hb] at hd
  simp only [List.length_cons] at hd
  simp [FilterGraph.pull, hb, hd]

theorem pull_eof {g : FilterGraph} {q : Picture} {rest : List Picture}
    (hb : g.buf = q :: rest) (he : g.eof = true) :
    g.pull = some (q, { g with buf := rest }) := by
  simp [FilterGraph.pull, hb, he]

theorem pushFilterS_eq (s : VideoCapture) (g : FilterGraph) (p : Picture)
    (h : s.filter_graph = some g) (he : g.eof = false) :
    pushFilterS s p =
      (true, { s with filter_graph := some { g with buf := g.buf ++ [p] } }) := by
  simp [pushFilterS, h, FilterGraph.push, he]

theorem pullSinkS_eq_none (s : VideoCapture) (g : FilterGraph)
    (h : s.filter_graph = some g) (hp : g.pull = none) :
    pullSinkS s = (none, s) := by
  simp [pullSinkS, h, hp]

theorem pullSinkS_eq_some (s : VideoCapture) (g : FilterGraph) (q : Picture)
    (g' : FilterGraph) (h : s.filter_graph = some g)
    (hp : g.pull = some (q, g')) :
    pullSinkS s = (some q, { s with filter_graph := some g' }) := by
  simp [pullSinkS, h, hp]

theorem flushFilterS_eq (s : VideoCapture) (g : FilterGraph)
    (h : s.filter_graph = some g) :
    flushFilterS s = (true, { s with filter_graph := some g.flush }) := by
  simp [flushFilterS, h]

/-- Behaviour of one direct read-loop run: the session stays open on the
same stream with intact flush bookkeeping, the call returns true exactly
when decodable frames remained, and the remaining-frame count (undecoded
pictures in video packets plus decoder-buffered pictures) drops by one,
floored at zero. -/
theorem directGo_spec (streams : List StreamInfo) :
    ∀ (pkts : List Packet) (s : VideoCapture) (dec : Decoder),
      s.codec_ctx = some dec →
      dec.flushed = s.flush_pending →
      (s.flush_pending = true → pkts = []) →
      ∃ (dec' : Decoder) (pkts' : List Packet),
        (readFrameDirectGo streams s pkts).2.1.codec_ctx = some dec' ∧
        (readFrameDirectGo streams s pkts).2.1.fmt_ctx = some ⟨pkts', streams⟩ ∧
        dec'.delay = dec.delay ∧
        dec'.flushed = (readFrameDirectGo streams s pkts).2.1.flush_pending ∧
        ((readFrameDirectGo streams s pkts).2.1.flush_pending = true → pkts' = []) ∧
        (readFrameDirectGo streams s pkts).2.1.video_stream_index = s.video_stream_index ∧
        (readFrameDirectGo streams s pkts).2.1.readFrameImpl = s.readFrameImpl ∧
        (readFrameDirectGo streams s pkts).2.1.filter_graph = s.filter_graph ∧
        (readFrameDirectGo streams s pkts).1 =
          decide (0 < decodableFrames pkts s.video_stream_index + dec.buf.length) ∧
        decodableFrames pkts' s.video_stream_index + dec'.buf.length =
          decodableFrames pkts s.video_stream_index + dec.buf.length - 1 := by
  intro pkts
  induction pkts with
  | nil =>
    intro s dec hco hfl hfp
    by_cases hf : s.flush_pending = true
    · have hflt : dec.flushed = true := by rw [hfl, hf]
      cases hb : dec.buf with
      | nil =>
        refine ⟨dec, [], ?_⟩
        simp [readFrameDirectGo, receiveAndConvert, recvFrameS, Decoder.receive,
          hco, hb, hf, hflt, decodableFrames_nil]
      | cons p prest =>
        refine ⟨{ dec with buf := prest }, [], ?_⟩
        simp [readFrameDirectGo, receiveAndConvert, recvFrameS, Decoder.receive,
          hco, hb, hf, hflt, decodableFrames_nil]
    · simp only [Bool.not_eq_true] at hf
      have hflfn : dec.flushed = false := by rw [hfl, hf]
      cases hb : dec.buf with
      | nil =>
        refine ⟨dec.sendFlush, [], ?_⟩
        simp [readFrameDirectGo, receiveAndConvert, recvFrameS, Decoder.receive,
          sendEOSS, Decoder.sendFlush, hco, hb, hf, hflfn, decodableFrames_nil]
      | cons p prest =>
        refine ⟨{ dec with buf := prest, flushed := true }, [], ?_⟩
        simp [readFrameDirectGo, receiveAndConvert, recvFrameS, Decoder.receive,
          sendEOSS, Decoder.sendFlush, hco, hb, hf, hflfn, decodableFrames_nil]
  | cons pkt rest ih =>
    intro s dec hco hfl hfp
    have hf : s.flush_pending = false := by
      cases hv : s.flush_pending
      · rfl
      · exact absurd (hfp hv) (by simp)
    have hflf : dec.flushed = false := by rw [hfl, hf]
    by_cases hidx : (pkt.stream_index == s.video_stream_index) = true
    · by_cases hd : dec.delay < dec.buf.length + pkt.pics.length
      · cases hb1 : dec.buf ++ pkt.pics with
        | nil =>
          exfalso
          have h0 := congrArg List.length hb1
          rw [List.length_append] at h0
          simp only [List.length_nil] at h0
          omega
        | cons q rest1 =>
          have hlen : dec.buf.length + pkt.pics.length = rest1.length + 1 := by
            have h0 := congrArg List.length hb1
            simpa using h0
          have hd1 : dec.delay < rest1.length + 1 := by omega
          refine ⟨{ dec with buf := rest1 }, rest, ?_⟩
          simp [readFrameDirectGo, receiveAndConvert, recvFrameS, sendPacketS,
            Decoder.send, Decoder.receive, hco, hf, hflf, hidx, hb1, hd1,
            decodableFrames_cons]
          omega
      · have hle : dec.buf.length + pkt.pics.length ≤ dec.delay := by omega
        have hrcv : (⟨dec.buf ++ pkt.pics, dec.delay, false, dec.codec_tag⟩ : Decoder).receive = none := by
          apply receive_eagain rfl
          simp
          omega
        have hEq : decodableFrames (pkt :: rest) s.video_stream_index + dec.buf.length =
            decodableFrames rest s.video_stream_index +
              (⟨dec.buf ++ pkt.pics, dec.delay, false, dec.codec_tag⟩ : Decoder).buf.length := by
          rw [decodableFrames_cons]
          simp [hidx]
          omega
        rw [hEq]
        simp only [readFrameDirectGo, receiveAndConvert, recvFrameS, sendPacketS,
          Decoder.send, hco, hflf, hidx, hrcv, Bool.not_true, Bool.not_false,
          Bool.false_eq_true, Bool.true_eq_false, if_true, if_false, ite_true, ite_false]
        exact ih { s with fmt_ctx := some ⟨rest, streams⟩,
                          codec_ctx := some ⟨dec.buf ++ pkt.pics, dec.delay, false, dec.codec_tag⟩ }
          ⟨dec.buf ++ pkt.pics, dec.delay, false, dec.codec_tag⟩ rfl (by rw [hf])
          (fun hcon => absurd hcon (by simp [hf]))
    · simp only [Bool.not_eq_true] at hidx
      have hEq : decodableFrames (pkt :: rest) s.video_stream_index =
          decodableFrames rest s.video_stream_index := by
        rw [decodableFrames_cons]
        simp [hidx]
      rw [hEq]
      simp only [readFrameDirectGo, hidx, Bool.false_eq_true, if_false]
      exact ih { s with fmt_ctx := some ⟨rest, streams⟩ } dec hco hfl
        (fun hcon => absurd hcon (by simp [hf]))

/-- Behaviour of one filtered read-loop run when the filter chain never
withholds output (delay 0, empty internal buffer): the session stays open
on the same stream with intact flush bookkeeping, the chain stays empty,
the call returns true exactly when decodable frames remained, and the
remaining-frame count drops by one, floored at zero. -/
theorem filteredGo_spec (streams : List StreamInfo) :
    ∀ (pkts : List Packet) (fuel : Nat) (s : VideoCapture) (dec : Decoder)
      (g : FilterGraph),
      s.codec_ctx = some dec →
      dec.flushed = s.flush_pending →
      (s.flush_pending = true → pkts = []) →
      s.filter_graph = some g →
      g.delay = 0 →
      g.buf = [] →
      (g.eof = true → s.flush_pending = true ∧ dec.buf = []) →
      pkts.length + 1 ≤ fuel →
      ∃ (dec' : Decoder) (g' : FilterGraph) (pkts' : List Packet),
        (readFrameFilteredGo streams fuel s pkts).2.1.codec_ctx = some dec' ∧
        (readFrameFilteredGo streams fuel s pkts).2.1.fmt_ctx = some ⟨pkts', streams⟩ ∧
        dec'.delay = dec.delay ∧
        dec'.flushed = (readFrameFilteredGo streams fuel s pkts).2.1.flush_pending ∧
        ((readFrameFilteredGo streams fuel s pkts).2.1.flush_pending = true → pkts' = []) ∧
        (readFrameFilteredGo streams fuel s pkts).2.1.video_stream_index =
          s.video_stream_index ∧
        (readFrameFilteredGo streams fuel s pkts).2.1.readFrameImpl = s.readFrameImpl ∧
        (readFrameFilteredGo streams fuel s pkts).2.1.filter_graph = some g' ∧
        g'.delay = 0 ∧ g'.buf = [] ∧
        (g'.eof = true →
          (readFrameFilteredGo streams fuel s pkts).2.1.flush_pending = true ∧
          dec'.buf = []) ∧
        (readFrameFilteredGo streams fuel s pkts).1 =
          decide (0 < decodableFrames pkts s.video_stream_index + dec.buf.length) ∧
        decodableFrames pkts' s.video_stream_index + dec'.buf.length =
          decodableFrames pkts s.video_stream_index + dec.buf.length - 1 := by
  intro pkts
  induction pkts with
  | nil =>
    intro fuel s dec g hco hfl hfp hfg hgd hgb hge hfuel
    cases fuel with
    | zero => exact absurd hfuel (by omega)
    | succ n =>
      by_cases hf : s.flush_pending = true
      · have hflt : dec.flushed = true := by rw [hfl, hf]
        cases hb : dec.buf with
        | nil =>
          refine ⟨dec, g.flush, [], ?_⟩
          simp [readFrameFilteredGo, recvFrameS, Decoder.receive, flushFilterS,
            pullSinkS, FilterGraph.pull, FilterGraph.flush, hco, hfg, hb, hgb,
            hgd, hf, hflt, decodableFrames_nil]
        | cons p prest =>
          have hgef : g.eof = false := by
            cases hv : g.eof
            · rfl
            · have := (hge hv).2
              rw [hb] at this
              cases this
          refine ⟨{ dec with buf := prest }, ⟨[], g.delay, g.eof⟩, [], ?_⟩
          simp [readFrameFilteredGo, recvFrameS, Decoder.receive, pushFilterS,
            FilterGraph.push, pullSinkS, FilterGraph.pull, hco, hfg, hb, hgb, hgd,
            hgef, hf, hflt, decodableFrames_nil]
      · simp only [Bool.not_eq_true] at hf
        have hflfn : dec.flushed = false := by rw [hfl, hf]
        cases hb : dec.buf with
        | nil =>
          refine ⟨dec.sendFlush, g.flush, [], ?_⟩
          simp [readFrameFilteredGo, recvFrameS, Decoder.receive, sendEOSS,
            Decoder.sendFlush, flushFilterS, pullSinkS, FilterGraph.pull,
            FilterGraph.flush, hco, hfg, hb, hgb, hgd, hf, hflfn,
            decodableFrames_nil]
        | cons p prest =>
          have hgef : g.eof = false := by
            cases hv : g.eof
            · rfl
            · have := (hge hv).1
              rw [hf] at this
              cases this
          refine ⟨{ dec with buf := prest, flushed := true }, ⟨[], g.delay, g.eof⟩, [], ?_⟩
          simp [readFrameFilteredGo, recvFrameS, Decoder.receive, sendEOSS,
            Decoder.sendFlush, pushFilterS, FilterGraph.push, pullSinkS,
            FilterGraph.pull, hco, hfg, hb, hgb, hgd, hgef, hf, hflfn,
            decodableFrames_nil]
  | cons pkt rest ih =>
    intro fuel s dec g hco hfl hfp hfg hgd hgb hge hfuel
    cases fuel with
    | zero => exact absurd hfuel (by omega)
    | succ n =>
      have hf : s.flush_pending = false := by
        cases hv : s.flush_pending
        · rfl
        · exact absurd (hfp hv) (by simp)
      have hflf : dec.flushed = false := by rw [hfl, hf]
      have hgef : g.eof = false := by
        cases hv : g.eof
        · rfl
        · have := (hge hv).1
          rw [hf] at this
          cases this
      by_cases hidx : (pkt.stream_index == s.video_stream_index) = true
      · by_cases hd : dec.delay < dec.buf.length + pkt.pics.length
        · cases hb1 : dec.buf ++ pkt.pics with
          | nil =>
            exfalso
            have h0 := congrArg List.length hb1
            rw [List.length_append] at h0
            simp only [List.length_nil] at h0
            omega
          | cons q rest1 =>
            have hlen : dec.buf.length + pkt.pics.length = rest1.length + 1 := by
              have h0 := congrArg List.length hb1
              simpa using h0
            have hd1 : dec.delay < rest1.length + 1 := by omega
            refine ⟨{ dec with buf := rest1 }, ⟨[], g.delay, g.eof⟩, rest, ?_⟩
            simp [readFrameFilteredGo, filteredProcessPacket, sendPacketS,
              Decoder.send, recvFrameS, Decoder.receive, pushFilterS,
              FilterGraph.push, pullSinkS, FilterGraph.pull, hco, hfg, hf, hflf,
              hgb, hgd, hgef, hidx, hb1, hd1, decodableFrames_cons]
            omega
        · have hrcv : (⟨dec.buf ++ pkt.pics, dec.delay, false, dec.codec_tag⟩ : Decoder).receive = none := by
            apply receive_eagain rfl
            simp
            omega
          have hEq : decodableFrames (pkt :: rest) s.video_stream_index + dec.buf.length =
              decodableFrames rest s.video_stream_index +
                (⟨dec.buf ++ pkt.pics, dec.delay, false, dec.codec_tag⟩ : Decoder).buf.length := by
            rw [decodableFrames_cons]
            simp [hidx]
            omega
          rw [hEq]
          simp only [readFrameFilteredGo, filteredProcessPacket, sendPacketS,
            Decoder.send, recvFrameS, hco, hflf, hidx, hrcv, Bool.not_true,
            Bool.not_false, Bool.false_eq_true, Bool.true_eq_false, if_true,
            if_false, ite_true, ite_false]
          exact ih n { s with fmt_ctx := some ⟨rest, streams⟩,
                              codec_ctx := some ⟨dec.buf ++ pkt.pics, dec.delay, false, dec.codec_tag⟩ }
            ⟨dec.buf ++ pkt.pics, dec.delay, false, dec.codec_tag⟩ g rfl (by rw [hf])
            (fun hcon => absurd hcon (by simp [hf])) hfg hgd hgb
            (fun hcon => absurd ((hge hcon).1) (by simp [hf]))
            (by simp at hfuel; omega)
      · simp only [Bool.not_eq_true] at hidx
        have hEq : decodableFrames (pkt :: rest) s.video_stream_index =
            decodableFrames rest s.video_stream_index := by
          rw [decodableFrames_cons]
          simp [hidx]
        rw [hEq]
        simp only [readFrameFilteredGo, filteredProcessPacket, hidx,
          Bool.false_eq_true, if_false]
        exact ih n { s with fmt_ctx := some ⟨rest, streams⟩ } dec g hco hfl
          (fun hcon => absurd hcon (by simp [hf])) hfg hgd hgb
          (fun hcon => absurd ((hge hcon).1) (by simp [hf]))
          (by simp at hfuel; omega)

/-- `sessionRem` unfolded for a session without a filter chain. -/
theorem sessionRem_eq_nofilter (s : VideoCapture) (d : Demuxer) (dec : Decoder)
    (hf : s.fmt_ctx = some d) (hc : s.codec_ctx = some dec)
    (hg : s.filter_graph = none) :
    sessionRem s = decodableFrames d.packets s.video_stream_index + dec.buf.length := by
  simp [sessionRem, hf, decoderBufLen, hc, filterBufLen, hg]

/-- `sessionRem` unfolded for a session holding a filter chain. -/
theorem sessionRem_eq_filter (s : VideoCapture) (d : Demuxer) (dec : Decoder)
    (g : FilterGraph) (hf : s.fmt_ctx = some d) (hc : s.codec_ctx = some dec)
    (hg : s.filter_graph = some g) :
    sessionRem s = decodableFrames d.packets s.video_stream_index + dec.buf.length +
      g.buf.length := by
  simp [sessionRem, hf, decoderBufLen, hc, filterBufLen, hg]

/-- One `readFrame` call on a session satisfying `C1Inv` preserves the
invariant, returns true exactly when output frames remain, and consumes
exactly one remaining frame when it succeeds. -/
theorem readFrame_C1_step (s : VideoCapture) (h : C1Inv s) :
    C1Inv (readFrame s true).2.1 ∧
    (readFrame s true).1 = decide (0 < sessionRem s) ∧
    sessionRem (readFrame s true).2.1 = sessionRem s - 1 := by
  obtain ⟨d, dec, hfmt, hco, hfl, hfp, hstrat⟩ := h
  rcases hstrat with ⟨himpl, hfgn⟩ | ⟨himpl, g, hfg, hgd, hgb, hge⟩
  · have hrem := sessionRem_eq_nofilter s d dec hfmt hco hfgn
    obtain ⟨dec', pkts', h1, h2, h3, h4, h5, h6, h7, h8, h9, h10⟩ :=
      directGo_spec d.streams d.packets s dec hco hfl hfp
    have hgo : readFrame s true = readFrameDirectGo d.streams s d.packets := by
      simp [readFrame, himpl, readFrameDirect, isOpened, hfmt, hco]
    rw [hgo, hrem]
    refine ⟨⟨⟨pkts', d.streams⟩, dec', h2, h1, h4, ?_, Or.inl ⟨h7.trans himpl, h8.trans hfgn⟩⟩, h9, ?_⟩
    · intro hx
      simp [h5 hx]
    · have hrem2 := sessionRem_eq_nofilter (readFrameDirectGo d.streams s d.packets).2.1
        ⟨pkts', d.streams⟩ dec' h2 h1 (h8.trans hfgn)
      rw [h6] at hrem2
      rw [hrem2]
      exact h10
  · have hrem : sessionRem s = decodableFrames d.packets s.video_stream_index +
        dec.buf.length := by
      rw [sessionRem_eq_filter s d dec g hfmt hco hfg, hgb]
      simp
    obtain ⟨dec', g', pkts', h1, h2, h3, h4, h5, h6, h7, h8, h9, h10, h11, h12, h13⟩ :=
      filteredGo_spec d.streams d.packets
        (filteredFuel d.packets (decoderBufLen s)) s dec g hco hfl hfp hfg hgd hgb
        (fun hv => ⟨(hge hv).1, (hge hv).2.1⟩)
        (by simp [filteredFuel]; omega)
    have hgo : readFrame s true = readFrameFilteredGo d.streams
        (filteredFuel d.packets (decoderBufLen s)) s d.packets := by
      simp [readFrame, himpl, readFrameFiltered, isOpened, hfmt, hco, hfg]
    rw [hgo, hrem]
    refine ⟨⟨⟨pkts', d.streams⟩, dec', h2, h1, h4, ?_,
      Or.inr ⟨h7.trans himpl, g', h8, h9, h10, ?_⟩⟩, h12, ?_⟩
    · intro hx
      simp [h5 hx]
    · intro hx
      exact ⟨(h11 hx).1, (h11 hx).2, by simp [h5 (h11 hx).1]⟩
    · have hrem2 := sessionRem_eq_filter (readFrameFilteredGo d.streams
          (filteredFuel d.packets (decoderBufLen s)) s d.packets).2.1
        ⟨pkts', d.streams⟩ dec' g' h2 h1 h8
      rw [h6, h10] at hrem2
      simp only [List.length_nil, Nat.add_zero] at hrem2
      rw [hrem2]
      exact h13

/-- Under `C1Inv`, `k` successive `readFrame` calls return true while
frames remain and false afterwards: `min k rem` trues then `k - rem`
falses. -/
theorem runReads_C1Inv (s : VideoCapture) (h : C1Inv s) (k : Nat) :
    (runReads s true k).1 =
      List.replicate (min k (sessionRem s)) true ++
      List.replicate (k - sessionRem s) false := by
  induction k generalizing s with
  | zero => simp [runReads]
  | succ n ih =>
    obtain ⟨hinv, hb, hrem⟩ := readFrame_C1_step s h
    have hlist : (runReads s true (n + 1)).1 =
        (readFrame s true).1 :: (runReads (readFrame s true).2.1 true n).1 := by
      simp [runReads]
    rw [hlist, hb, ih _ hinv, hrem]
    rcases hn : sessionRem s with _ | m
    · simp [List.replicate_succ]
    · simp [Nat.succ_min_succ, Nat.succ_sub_succ, List.replicate_succ]

/-- A successful `open` in a good environment establishes `C1Inv` whenever
the strategy is Direct, or Filtered with a delay-free chain; the frames
then obtainable are exactly the decodable frames of the source. -/
theorem open_C1Inv (s₀ : VideoCapture) (env : OpenEnv) (tw th : Int)
    (hg : env.good) (d : Demuxer) (hd : env.open_input = some d)
    (hfd : env.filter_delay = 0 ∨ ¬(tw > 0 ∧ th > 0)) :
    C1Inv (VideoCapture.«open» s₀ env tw th).2 ∧
    sessionRem (VideoCapture.«open» s₀ env tw th).2 =
      decodableFrames d.packets env.best_stream := by
  obtain ⟨⟨d', hd'⟩, h₂, h₃, h₄, h₅, h₆, h₇, h₈, h₉⟩ := hg
  simp only [VideoCapture.«open», close, closeImpl, hd, h₂, h₄, h₅, h₆, h₇, h₈, h₉,
    Bool.not_true, Bool.false_eq_true, if_false]
  rw [if_neg (by omega)]
  by_cases hwh : tw > 0 ∧ th > 0
  · rw [if_pos (by simp [hwh.1, hwh.2])]
    simp only [if_true]
    have hfd0 : env.filter_delay = 0 := hfd.resolve_right (fun hx => hx hwh)
    constructor
    · exact ⟨d, ⟨[], env.decoder_delay, false, env.codec_tag⟩, rfl, rfl, rfl,
        by simp, Or.inr ⟨rfl, ⟨[], env.filter_delay, false⟩, rfl, hfd0, rfl,
          by simp⟩⟩
    · simp [sessionRem, decoderBufLen, filterBufLen]
  · rw [if_neg (by simpa [Decidable.not_and_iff_or_not] using hwh)]
    constructor
    · exact ⟨d, ⟨[], env.decoder_delay, false, env.codec_tag⟩, rfl, rfl, rfl,
        by simp, Or.inl ⟨rfl, rfl⟩⟩
    · simp [sessionRem, decoderBufLen, filterBufLen]

/-- C1 counterexample: a one-frame source opened Filtered whose decoder
withholds one picture and whose filter chain withholds one more.  `open`
succeeds and the source has exactly one decodable frame, so the claim
predicts reads `[true, false, false]`; the code returns
`[false, true, false]` — the first call fails while frames are still in
flight, and the end-of-stream `false` is not sticky within the session. -/
theorem C1_counterexample :
    (VideoCapture.«open» init (exEnv [⟨0, [⟨7⟩]⟩] 1 1) 32 32).1 = true ∧
    sessionRem exC1Session = 1 ∧
    (runReads exC1Session true 3).1 = [false, true, false] ∧
    (runReads exC1Session true 3).1 ≠
      List.replicate 1 true ++ List.replicate 2 false := by decide

/-- C1 (amended): for every source with `N` decodable frames opened in a
good environment with the Direct strategy, or the Filtered strategy with a
chain that never withholds output, repeated `readFrame` calls return true
exactly `N` times and then false on every subsequent call. -/
theorem C1_amended (s₀ : VideoCapture) (env : OpenEnv) (tw th : Int)
    (d : Demuxer) (hg : env.good) (hd : env.open_input = some d)
    (hfd : env.filter_delay = 0 ∨ ¬(tw > 0 ∧ th > 0)) (k : Nat) :
    (VideoCapture.«open» s₀ env tw th).1 = true ∧
    (runReads (VideoCapture.«open» s₀ env tw th).2 true k).1 =
      List.replicate (min k (decodableFrames d.packets env.best_stream)) true ++
      List.replicate (k - decodableFrames d.packets env.best_stream) false := by
  obtain ⟨hinv, hN⟩ := open_C1Inv s₀ env tw th hg d hd hfd
  exact ⟨open_succeeds_of_good s₀ env tw th hg,
    by rw [runReads_C1Inv _ hinv k, hN]⟩

/-- Witness for C1 (amended): a concrete one-frame Filtered session with a
delay-free chain; three reads give one true then two falses. -/
theorem C1_amended_witness :
    (VideoCapture.«open» init (exEnv [⟨0, [⟨7⟩]⟩] 0 0) 32 32).1 = true ∧
    (runReads (VideoCapture.«open» init (exEnv [⟨0, [⟨7⟩]⟩] 0 0) 32 32).2 true 3).1 =
      List.replicate (min 3 (decodableFrames [⟨0, [⟨7⟩]⟩] 0)) true ++
      List.replicate (3 - decodableFrames [⟨0, [⟨7⟩]⟩] 0) false :=
  C1_amended init (exEnv [⟨0, [⟨7⟩]⟩] 0 0) 32 32 ⟨[⟨0, [⟨7⟩]⟩], [exStream]⟩
    (by decide) rfl (Or.inl rfl) 3

end VideoCapture

end DG
